import Mathlib

/-!
Verification of the heuristic project-analysis and report-aggregation
pipeline of the jim-resume repository (src/github_monitor.py and
src/report_generator.py), as a shallow embedding in Lean 4.

Modelling conventions:
* Python `float` arithmetic over the small score constants is modelled by
  exact rational arithmetic (`ℚ`).  All verdict-relevant comparisons in the
  claims happen at decimal-literal points, where float and rational
  comparison agree for the concrete inputs used below.
* Python `dict`s are modelled as association lists preserving insertion
  order (CPython dicts are insertion ordered).
* `list(set(...))` (Python set deduplication, whose iteration order is
  fixed within one process run) is modelled as first-occurrence
  deduplication (`List.eraseDups`).
* `datetime` parsing/formatting is external standard-library code, not
  part of this repository; it is modelled below (`pyFromIso`) for the
  ISO-8601 subset that the GitHub API produces.
-/

/-- Mirror of the `Repository` dataclass in src/github_monitor.py. -/
structure Repository where
  name : String
  full_name : String
  description : String
  language : String
  languages : List (String × Nat)
  topics : List String
  stars : Nat
  forks : Nat
  created_at : String
  updated_at : String
  pushed_at : String
  size : Nat
  open_issues : Nat
  is_private : Bool
  readme_content : String := ""
  license : Option String := none
  homepage : Option String := none
  file_tree : List String := []
  key_files : List (String × String) := []
  dependencies : List String := []
  commit_messages : List String := []
  architecture_hints : List String := []
  deriving DecidableEq, Repr

/-- Mirror of the `ProjectAnalysis` dataclass in src/github_monitor.py. -/
structure ProjectAnalysis where
  repo : Repository
  tech_stack : List String
  project_type : String
  business_value : String
  complexity_score : ℚ
  ai_collaboration : Bool
  estimated_duration : String
  key_features : List String
  role_suggestions : List String
  deriving DecidableEq, Repr

/-- `self.tech_mapping` from `GitHubMonitor.__init__`. -/
def techMapping : List (String × List String) :=
  [("Python", ["AI/ML", "数据处理", "自动化", "Web开发"]),
   ("JavaScript", ["前端开发", "Web应用", "Node.js", "React"]),
   ("TypeScript", ["前端框架", "企业级应用", "类型安全"]),
   ("HTML", ["Web前端", "用户界面"]),
   ("CSS", ["界面设计", "响应式布局"]),
   ("Go", ["微服务", "云原生", "高性能"]),
   ("Java", ["企业应用", "后端服务", "Spring"]),
   ("Dockerfile", ["容器化", "DevOps", "部署自动化"]),
   ("Shell", ["运维自动化", "脚本工具"])]

/-- `self.ai_keywords` from `GitHubMonitor.__init__`. -/
def aiKeywords : List String :=
  ["ai", "ml", "gpt", "claude", "llm", "ocr", "automation",
   "intelligent", "smart", "neural", "model", "openai",
   "chatgpt", "anthropic", "machine learning", "deep learning"]

/-- `self.project_types` from `GitHubMonitor.__init__` (insertion order kept). -/
def projectTypes : List (String × List String) :=
  [("AI工具", ["ai", "ml", "ocr", "tts", "nlp", "cv"]),
   ("自动化工具", ["automation", "script", "tool", "process"]),
   ("Web应用", ["web", "app", "frontend", "backend", "api"]),
   ("数据处理", ["data", "analysis", "etl", "database"]),
   ("企业系统", ["enterprise", "business", "management", "crm"]),
   ("开发工具", ["dev", "tool", "utility", "helper"]),
   ("移动应用", ["mobile", "android", "ios", "app"]),
   ("游戏", ["game", "unity", "engine"]),
   ("区块链", ["blockchain", "crypto", "web3", "defi"]),
   ("物联网", ["iot", "sensor", "embedded", "arduino"])]

/-- Boolean test: first list is a (contiguous) leading segment of the second. -/
def isPfx : List Char → List Char → Bool
  | [], _ => true
  | _ :: _, [] => false
  | a :: as, b :: bs => a == b && isPfx as bs

/-- Boolean test: first list occurs contiguously inside the second. -/
def isSub (pat : List Char) : List Char → Bool
  | [] => pat.isEmpty
  | c :: rest => isPfx pat (c :: rest) || isSub pat rest

/-- Python substring test `kw in text` on lowered character lists. -/
def containsKw (text : List Char) (kw : String) : Bool :=
  isSub kw.data text

/-- The lowercase corpus
`f"{repo.name} {repo.description} {' '.join(repo.topics)} {repo.readme_content}".lower()`
used by `_classify_project_type` and `_detect_ai_collaboration`. -/
def analysisText (r : Repository) : List Char :=
  (r.name ++ " " ++ r.description ++ " " ++ String.intercalate " " r.topics
    ++ " " ++ r.readme_content).data.map Char.toLower

/-- `sum(1 for keyword in keywords if keyword in text_to_analyze)`. -/
def keywordScore (text : List Char) (kws : List String) : Nat :=
  (kws.filter (fun k => containsKw text k)).length

/-- Python's `max(scores, key=scores.get)` over an insertion-ordered dict:
a left scan that replaces the current maximum only on a strictly greater
value, so the first occurrence of the maximum wins. -/
def pyMaxGo (cur : String × Nat) : List (String × Nat) → String × Nat
  | [] => cur
  | p :: rest => pyMaxGo (if p.2 > cur.2 then p else cur) rest

/-- The `scores` dict of `_classify_project_type`: insertion-ordered pairs for
the project types with positive keyword score. -/
def scoreList (text : List Char) : List (String × Nat) :=
  projectTypes.filterMap (fun p =>
    let s := keywordScore text p.2
    if s > 0 then some (p.1, s) else none)

/-- `GitHubMonitor._classify_project_type`. -/
def classifyProjectType (r : Repository) : String :=
  let text := analysisText r
  match scoreList text with
  | [] => "其他工具"
  | p :: rest => (pyMaxGo p rest).1

/-- `GitHubMonitor._detect_ai_collaboration`. -/
def detectAICollaboration (r : Repository) : Bool :=
  aiKeywords.any (fun k => containsKw (analysisText r) k)

/-- `GitHubMonitor._calculate_complexity` (sequential accumulation exactly as
in the source; Python float addition modelled by exact rationals). -/
def calculateComplexity (r : Repository) : ℚ :=
  let score : ℚ := 0
  let score := if r.size > 10000 then score + 3/10
    else if r.size > 1000 then score + 2/10
    else if r.size > 100 then score + 1/10 else score
  let langCount := r.languages.length
  let score := if langCount > 5 then score + 2/10
    else if langCount > 3 then score + 15/100
    else if langCount > 1 then score + 1/10 else score
  let score := if r.stars > 50 then score + 1/10
    else if r.stars > 10 then score + 5/100 else score
  let score := if r.forks > 20 then score + 1/10
    else if r.forks > 5 then score + 5/100 else score
  let score := if r.readme_content.length > 5000 then score + 1/10
    else if r.readme_content.length > 1000 then score + 5/100 else score
  let score := if r.topics.length > 5 then score + 1/10
    else if r.topics.length > 2 then score + 5/100 else score
  min score 1

/-- `GitHubMonitor._assess_business_value` (ordered decision list). -/
def assessBusinessValue (r : Repository) : String :=
  let complexity := calculateComplexity r
  let ai_collab := detectAICollaboration r
  if 7/10 < complexity ∧ ai_collab = true then "高价值 - AI协作复杂项目"
  else if 1/2 < complexity ∧ ai_collab = true then "中高价值 - AI应用项目"
  else if 7/10 < complexity then "中高价值 - 复杂技术项目"
  else if ai_collab = true then "中等价值 - AI工具应用"
  else if 2/5 < complexity then "中等价值 - 实用工具"
  else "基础价值 - 学习项目"

/-- The business-value tier as a function of the (complexity, AI-flag) pair,
following the spec wording; compared against `assessBusinessValue`. -/
def businessValueOf (complexity : ℚ) (ai : Bool) : String :=
  if 7/10 < complexity ∧ ai = true then "高价值 - AI协作复杂项目"
  else if 1/2 < complexity ∧ ai = true then "中高价值 - AI应用项目"
  else if 7/10 < complexity then "中高价值 - 复杂技术项目"
  else if ai = true then "中等价值 - AI工具应用"
  else if 2/5 < complexity then "中等价值 - 实用工具"
  else "基础价值 - 学习项目"

/-- `GitHubMonitor._estimate_duration` (the `repo` argument is unused in the
source as well). -/
def estimateDuration (_r : Repository) (complexity : ℚ) : String :=
  if 8/10 < complexity then "2-6个月"
  else if 6/10 < complexity then "1-3个月"
  else if 4/10 < complexity then "2-6周"
  else if 2/10 < complexity then "1-2周"
  else "数天"

/-- `feature_keywords` of `_extract_key_features`. -/
def featureKeywords : List (String × List String) :=
  [("自动化处理", ["auto", "automatic", "batch", "process"]),
   ("AI集成", ["ai", "gpt", "claude", "ml", "intelligent"]),
   ("Web界面", ["web", "ui", "interface", "dashboard"]),
   ("API接口", ["api", "rest", "endpoint", "service"]),
   ("数据处理", ["data", "csv", "json", "database"]),
   ("图像处理", ["image", "ocr", "cv", "vision"]),
   ("文件管理", ["file", "folder", "document", "export"]),
   ("实时处理", ["real-time", "live", "monitor", "watch"]),
   ("批量操作", ["batch", "bulk", "multiple", "mass"]),
   ("跨平台", ["cross-platform", "multi-platform", "universal"])]

/-- `GitHubMonitor._extract_key_features` (corpus is description + README). -/
def extractKeyFeatures (r : Repository) : List String :=
  let text := (r.description ++ " " ++ r.readme_content).data.map Char.toLower
  ((featureKeywords.filter (fun p => p.2.any (fun k => containsKw text k))).map
    (fun p => p.1)).take 5

/-- `GitHubMonitor._suggest_roles`. -/
def suggestRoles (r : Repository) (tech_stack : List String) (ai_collab : Bool) :
    List String :=
  let roles : List String := []
  let roles := if ai_collab then roles ++ ["AI协作专家"] else roles
  let roles := if ["前端开发", "Web应用", "React"].any
      (fun t => tech_stack.contains t) then roles ++ ["前端开发工程师"] else roles
  let roles := if ["AI/ML", "数据处理"].any
      (fun t => tech_stack.contains t) then roles ++ ["AI产品经理"] else roles
  let roles := if ["自动化", "脚本工具"].any
      (fun t => tech_stack.contains t) then roles ++ ["自动化专家"] else roles
  let roles := if r.stars > 10 ∨ r.forks > 5 then roles ++ ["技术负责人"] else roles
  let roles := if roles.isEmpty then ["开发工程师"] else roles
  roles.take 3

/-- `GitHubMonitor.analyze_project`: the per-record classifier. -/
def analyzeProject (r : Repository) : ProjectAnalysis :=
  let tech_stack :=
    (r.languages.foldl (fun acc lv =>
      match techMapping.lookup lv.1 with
      | some tags => acc ++ tags
      | none => acc) []).eraseDups
  let project_type := classifyProjectType r
  let ai_collaboration := detectAICollaboration r
  let complexity_score := calculateComplexity r
  let business_value := assessBusinessValue r
  let estimated_duration := estimateDuration r complexity_score
  let key_features := extractKeyFeatures r
  let role_suggestions := suggestRoles r tech_stack ai_collaboration
  { repo := r
    tech_stack := tech_stack
    project_type := project_type
    business_value := business_value
    complexity_score := complexity_score
    ai_collaboration := ai_collaboration
    estimated_duration := estimated_duration
    key_features := key_features
    role_suggestions := role_suggestions }

/-- The size band of the complexity score, as the spec states it
(highest matching tier only). -/
def sizePoints (size : Nat) : ℚ :=
  if size > 10000 then 3/10 else if size > 1000 then 2/10
  else if size > 100 then 1/10 else 0

/-- The language-count band of the complexity score. -/
def langPoints (langCount : Nat) : ℚ :=
  if langCount > 5 then 2/10 else if langCount > 3 then 15/100
  else if langCount > 1 then 1/10 else 0

/-- The stars band of the complexity score. -/
def starPoints (stars : Nat) : ℚ :=
  if stars > 50 then 1/10 else if stars > 10 then 5/100 else 0

/-- The forks band of the complexity score. -/
def forkPoints (forks : Nat) : ℚ :=
  if forks > 20 then 1/10 else if forks > 5 then 5/100 else 0

/-- The README-length band of the complexity score. -/
def readmePoints (readmeLen : Nat) : ℚ :=
  if readmeLen > 5000 then 1/10 else if readmeLen > 1000 then 5/100 else 0

/-- The topic-count band of the complexity score. -/
def topicPoints (topicCount : Nat) : ℚ :=
  if topicCount > 5 then 1/10 else if topicCount > 2 then 5/100 else 0

lemma ite3_add (p q s : Prop) [Decidable p] [Decidable q] [Decidable s]
    (x a b c : ℚ) :
    (if p then x + a else if q then x + b else if s then x + c else x)
      = x + (if p then a else if q then b else if s then c else 0) := by
  split_ifs <;> simp

lemma ite2_add (p q : Prop) [Decidable p] [Decidable q] (x a b : ℚ) :
    (if p then x + a else if q then x + b else x)
      = x + (if p then a else if q then b else 0) := by
  split_ifs <;> simp

/-- The sequential accumulation of `_calculate_complexity` equals the clamped
sum of the six independent bands. -/
lemma calculateComplexity_eq (r : Repository) :
    calculateComplexity r =
      min (sizePoints r.size + langPoints r.languages.length + starPoints r.stars
        + forkPoints r.forks + readmePoints r.readme_content.length
        + topicPoints r.topics.length) 1 := by
  simp only [calculateComplexity]
  rw [ite3_add, ite3_add, ite2_add, ite2_add, ite2_add, ite2_add]
  simp only [sizePoints, langPoints, starPoints, forkPoints, readmePoints,
    topicPoints, zero_add]

lemma sizePoints_nonneg (n : Nat) : 0 ≤ sizePoints n := by
  unfold sizePoints; split_ifs <;> norm_num

lemma langPoints_nonneg (n : Nat) : 0 ≤ langPoints n := by
  unfold langPoints; split_ifs <;> norm_num

lemma starPoints_nonneg (n : Nat) : 0 ≤ starPoints n := by
  unfold starPoints; split_ifs <;> norm_num

lemma forkPoints_nonneg (n : Nat) : 0 ≤ forkPoints n := by
  unfold forkPoints; split_ifs <;> norm_num

lemma readmePoints_nonneg (n : Nat) : 0 ≤ readmePoints n := by
  unfold readmePoints; split_ifs <;> norm_num

lemma topicPoints_nonneg (n : Nat) : 0 ≤ topicPoints n := by
  unfold topicPoints; split_ifs <;> norm_num

lemma sizePoints_mono {a b : Nat} (h : a ≤ b) : sizePoints a ≤ sizePoints b := by
  unfold sizePoints; split_ifs <;> first | (exfalso; omega) | norm_num

lemma langPoints_mono {a b : Nat} (h : a ≤ b) : langPoints a ≤ langPoints b := by
  unfold langPoints; split_ifs <;> first | (exfalso; omega) | norm_num

lemma starPoints_mono {a b : Nat} (h : a ≤ b) : starPoints a ≤ starPoints b := by
  unfold starPoints; split_ifs <;> first | (exfalso; omega) | norm_num

lemma forkPoints_mono {a b : Nat} (h : a ≤ b) : forkPoints a ≤ forkPoints b := by
  unfold forkPoints; split_ifs <;> first | (exfalso; omega) | norm_num

lemma readmePoints_mono {a b : Nat} (h : a ≤ b) :
    readmePoints a ≤ readmePoints b := by
  unfold readmePoints; split_ifs <;> first | (exfalso; omega) | norm_num

lemma topicPoints_mono {a b : Nat} (h : a ≤ b) :
    topicPoints a ≤ topicPoints b := by
  unfold topicPoints; split_ifs <;> first | (exfalso; omega) | norm_num

/-- C2: for every Repository Record, the complexity score equals the sum of the
six independent banded contributions (size, language count, stars, forks,
README length, topic count), each band contributing only its highest matching
tier, with the total clamped to 1.0. -/
theorem complexity_score_is_clamped_band_sum (r : Repository) :
    calculateComplexity r =
      min (sizePoints r.size + langPoints r.languages.length + starPoints r.stars
        + forkPoints r.forks + readmePoints r.readme_content.length
        + topicPoints r.topics.length) 1 ∧
    calculateComplexity r ≤ 1 :=
  ⟨calculateComplexity_eq r, by rw [calculateComplexity_eq]; exact min_le_right _ _⟩

/-- C3: the complexity score lies in [0,1], and increasing any one contributing
metric (size, language count, stars, forks, README length, topic count) while
holding all other fields fixed never decreases the score. -/
theorem complexity_in_unit_interval_and_monotone (r : Repository) :
    (0 ≤ calculateComplexity r ∧ calculateComplexity r ≤ 1) ∧
    (∀ n : Nat, r.size ≤ n →
      calculateComplexity r ≤ calculateComplexity { r with size := n }) ∧
    (∀ L : List (String × Nat), r.languages.length ≤ L.length →
      calculateComplexity r ≤ calculateComplexity { r with languages := L }) ∧
    (∀ n : Nat, r.stars ≤ n →
      calculateComplexity r ≤ calculateComplexity { r with stars := n }) ∧
    (∀ n : Nat, r.forks ≤ n →
      calculateComplexity r ≤ calculateComplexity { r with forks := n }) ∧
    (∀ s : String, r.readme_content.length ≤ s.length →
      calculateComplexity r ≤ calculateComplexity { r with readme_content := s }) ∧
    (∀ T : List String, r.topics.length ≤ T.length →
      calculateComplexity r ≤ calculateComplexity { r with topics := T }) := by
  refine ⟨⟨?_, ?_⟩, ?_, ?_, ?_, ?_, ?_, ?_⟩
  · rw [calculateComplexity_eq]
    refine le_min ?_ (by norm_num)
    have h1 := sizePoints_nonneg r.size
    have h2 := langPoints_nonneg r.languages.length
    have h3 := starPoints_nonneg r.stars
    have h4 := forkPoints_nonneg r.forks
    have h5 := readmePoints_nonneg r.readme_content.length
    have h6 := topicPoints_nonneg r.topics.length
    linarith
  · rw [calculateComplexity_eq]; exact min_le_right _ _
  · intro n h
    rw [calculateComplexity_eq, calculateComplexity_eq]
    dsimp only
    gcongr
    exact sizePoints_mono h
  · intro L h
    rw [calculateComplexity_eq, calculateComplexity_eq]
    dsimp only
    gcongr
    exact langPoints_mono h
  · intro n h
    rw [calculateComplexity_eq, calculateComplexity_eq]
    dsimp only
    gcongr
    exact starPoints_mono h
  · intro n h
    rw [calculateComplexity_eq, calculateComplexity_eq]
    dsimp only
    gcongr
    exact forkPoints_mono h
  · intro s h
    rw [calculateComplexity_eq, calculateComplexity_eq]
    dsimp only
    gcongr
    exact readmePoints_mono h
  · intro T h
    rw [calculateComplexity_eq, calculateComplexity_eq]
    dsimp only
    gcongr
    exact topicPoints_mono h

/-- Witness for C3 at a concrete record. -/
theorem complexity_monotone_witness :
    calculateComplexity
        { name := "w", full_name := "u/w", description := "", language := "",
          languages := [], topics := [], stars := 0, forks := 0,
          created_at := "", updated_at := "", pushed_at := "",
          size := 200, open_issues := 0, is_private := false } ≤
      calculateComplexity
        { name := "w", full_name := "u/w", description := "", language := "",
          languages := [], topics := [], stars := 0, forks := 0,
          created_at := "", updated_at := "", pushed_at := "",
          size := 20000, open_issues := 0, is_private := false } :=
  (complexity_in_unit_interval_and_monotone _).2.1 20000 (by norm_num)

/-- C4 (amended): for every record, the business-value tier is the pure
function `businessValueOf` of the pair (complexity score, AI-collaboration
flag), evaluated as the ordered first-match-wins decision list; at the
boundary, complexity = 0.70 with AI flag false yields the medium/practical-
tool tier (the strict comparison excludes the boundary point), while
complexity = 0.71 with AI flag true yields the high/AI-complex tier. -/
theorem business_value_decision_list (r : Repository) (c : ℚ) (ai : Bool) :
    assessBusinessValue r
        = businessValueOf (calculateComplexity r) (detectAICollaboration r) ∧
    (7/10 < c → ai = true → businessValueOf c ai = "高价值 - AI协作复杂项目") ∧
    (c ≤ 7/10 → 1/2 < c → ai = true →
      businessValueOf c ai = "中高价值 - AI应用项目") ∧
    (7/10 < c → ai = false → businessValueOf c ai = "中高价值 - 复杂技术项目") ∧
    (c ≤ 1/2 → ai = true → businessValueOf c ai = "中等价值 - AI工具应用") ∧
    (c ≤ 7/10 → 2/5 < c → ai = false → businessValueOf c ai = "中等价值 - 实用工具") ∧
    (c ≤ 2/5 → ai = false → businessValueOf c ai = "基础价值 - 学习项目") ∧
    businessValueOf (7/10) false = "中等价值 - 实用工具" ∧
    businessValueOf (71/100) true = "高价值 - AI协作复杂项目" := by
  refine ⟨rfl, ?_, ?_, ?_, ?_, ?_, ?_, by norm_num [businessValueOf],
      by norm_num [businessValueOf]⟩ <;>
    · intros
      unfold businessValueOf
      split_ifs <;> first | rfl | (exfalso; simp_all; try linarith)

/-- Witness for C4 at concrete pair inputs. -/
theorem business_value_decision_list_witness :
    businessValueOf (8/10) true = "高价值 - AI协作复杂项目" :=
  (business_value_decision_list
    { name := "w", full_name := "u/w", description := "", language := "",
      languages := [], topics := [], stars := 0, forks := 0,
      created_at := "", updated_at := "", pushed_at := "",
      size := 0, open_issues := 0, is_private := false }
    (8/10) true).2.1 (by norm_num) rfl

/-- A record whose complexity score is exactly 0.70 (bands 0.3 + 0.2 + 0.1 +
0.1, a combination on which Python float accumulation also yields exactly
0.7) and whose AI-collaboration flag is false. -/
def bvBoundaryRepo : Repository :=
  { name := "proj", full_name := "u/proj", description := "", language := "",
    languages := [("A", 1), ("B", 1), ("C", 1), ("D", 1), ("E", 1), ("F", 1)],
    topics := [], stars := 60, forks := 25,
    created_at := "2024-01-01T00:00:00Z", updated_at := "2024-01-01T00:00:00Z",
    pushed_at := "2024-01-01T00:00:00Z", size := 20000, open_issues := 0,
    is_private := false }

/-- Counterexample for C4 as stated: at complexity exactly 0.70 with the AI
flag false the code returns the medium/practical-tool tier, not the
medium-high/complex-technical tier the claim asserts for that boundary. -/
theorem business_value_boundary_counterexample :
    calculateComplexity bvBoundaryRepo = 7/10 ∧
    detectAICollaboration bvBoundaryRepo = false ∧
    assessBusinessValue bvBoundaryRepo = "中等价值 - 实用工具" ∧
    ¬ assessBusinessValue bvBoundaryRepo = "中高价值 - 复杂技术项目" := by
  have hC : calculateComplexity bvBoundaryRepo = 7/10 := by
    norm_num [calculateComplexity_eq, sizePoints, langPoints, starPoints,
      forkPoints, readmePoints, topicPoints, bvBoundaryRepo]
  have hA : detectAICollaboration bvBoundaryRepo = false := by decide
  have hB : assessBusinessValue bvBoundaryRepo = "中等价值 - 实用工具" := by
    simp only [assessBusinessValue, hC, hA]
    norm_num
  exact ⟨hC, hA, hB, by rw [hB]; decide⟩

/-- C8: the per-record classifier is deterministic — two evaluations of
`analyzeProject` on equal records produce identical Classification results,
including an identical tech-stack tag list. -/
theorem analyze_project_deterministic (r1 r2 : Repository) (h : r1 = r2) :
    analyzeProject r1 = analyzeProject r2 ∧
    (analyzeProject r1).tech_stack = (analyzeProject r2).tech_stack := by
  subst h
  exact ⟨rfl, rfl⟩

/-- Witness for C8 at a concrete record. -/
theorem analyze_project_deterministic_witness :
    analyzeProject bvBoundaryRepo = analyzeProject bvBoundaryRepo ∧
    (analyzeProject bvBoundaryRepo).tech_stack
      = (analyzeProject bvBoundaryRepo).tech_stack :=
  analyze_project_deterministic bvBoundaryRepo bvBoundaryRepo rfl

/-- Leap-year rule of the Gregorian calendar (model of Python `datetime`'s
calendar, which is external standard-library code). -/
def isLeapYear (y : Nat) : Bool :=
  (y % 4 == 0 && y % 100 != 0) || y % 400 == 0

/-- Number of days in a month (model of Python `datetime`'s calendar). -/
def daysInMonth (y m : Nat) : Nat :=
  if m = 2 then (if isLeapYear y then 29 else 28)
  else if m = 4 ∨ m = 6 ∨ m = 9 ∨ m = 11 then 30 else 31

/-- Day count of a proleptic-Gregorian civil date (days since 0000-03-01),
for valid dates with year ≥ 1 (model of Python `datetime` day arithmetic). -/
def daysFromCivil (y m d : Nat) : Nat :=
  let y2 := if m ≤ 2 then y - 1 else y
  let m2 := if m ≤ 2 then m + 9 else m - 3
  365 * y2 + y2 / 4 - y2 / 100 + y2 / 400 + (153 * m2 + 2) / 5 + (d - 1)

/-- Modelled from the spec: Python `datetime` values (external standard
library).  Wall-clock fields plus the tz-awareness flag;
`replace(tzinfo=None)` keeps the wall-clock fields and clears the flag. -/
structure PyDateTime where
  year : Nat
  month : Nat
  day : Nat
  hour : Nat
  minute : Nat
  second : Nat
  tzAware : Bool
  deriving DecidableEq, Repr

/-- Wall-clock seconds of a datetime (the order used when Python compares
two naive datetimes). -/
def PyDateTime.naiveSeconds (t : PyDateTime) : Int :=
  ((daysFromCivil t.year t.month t.day) * 86400
    + t.hour * 3600 + t.minute * 60 + t.second : Nat)

/-- `datetime.replace(tzinfo=None)`: keep wall clock, drop awareness. -/
def PyDateTime.stripTz (t : PyDateTime) : PyDateTime :=
  { t with tzAware := false }

/-- All-digit character run to a number, else `none`. -/
def digitsToNat? (l : List Char) : Option Nat :=
  if l.isEmpty then none
  else if l.all Char.isDigit then
    some (l.foldl (fun acc c => acc * 10 + (c.toNat - 48)) 0)
  else none

/-- The `YYYY-MM-DD` date part of an ISO string, with range validation
(model of the date half of `datetime.fromisoformat`). -/
def parseDatePart (l : List Char) : Option (Nat × Nat × Nat) :=
  match l with
  | [a, b, c, d, s1, e, f, s2, g, h] =>
    if s1 = '-' ∧ s2 = '-' then
      match digitsToNat? [a, b, c, d], digitsToNat? [e, f], digitsToNat? [g, h] with
      | some y, some mo, some da =>
        if 1 ≤ y ∧ 1 ≤ mo ∧ mo ≤ 12 ∧ 1 ≤ da ∧ da ≤ daysInMonth y mo then
          some (y, mo, da)
        else none
      | _, _, _ => none
    else none
  | _ => none

/-- An `HH:MM` or `HH:MM:SS` time part with range validation (model of the
time half of `datetime.fromisoformat`, without fractional seconds, which the
GitHub API never produces). -/
def parseHMS (l : List Char) : Option (Nat × Nat × Nat) :=
  match l with
  | [h1, h2, c1, m1, m2] =>
    if c1 = ':' then
      match digitsToNat? [h1, h2], digitsToNat? [m1, m2] with
      | some h, some mi => if h ≤ 23 ∧ mi ≤ 59 then some (h, mi, 0) else none
      | _, _ => none
    else none
  | [h1, h2, c1, m1, m2, c2, s1, s2] =>
    if c1 = ':' ∧ c2 = ':' then
      match digitsToNat? [h1, h2], digitsToNat? [m1, m2], digitsToNat? [s1, s2] with
      | some h, some mi, some se =>
        if h ≤ 23 ∧ mi ≤ 59 ∧ se ≤ 59 then some (h, mi, se) else none
      | _, _, _ => none
    else none
  | _ => none

/-- Split a time string at the first `+`/`-` sign (start of a UTC offset). -/
def splitAtSign : List Char → List Char × Option (List Char)
  | [] => ([], none)
  | c :: rest =>
    if c = '+' ∨ c = '-' then ([], some rest)
    else
      let (a, t) := splitAtSign rest
      (c :: a, t)

/-- Modelled from the spec: `datetime.fromisoformat` (external standard
library), for the ISO-8601 subset `YYYY-MM-DD[<sep>HH:MM[:SS][±HH:MM]]`
produced by the GitHub API; an offset makes the value timezone-aware. -/
def pyFromIso' (l : List Char) : Option PyDateTime :=
  if l.length = 10 then
    (parseDatePart l).map (fun x => ⟨x.1, x.2.1, x.2.2, 0, 0, 0, false⟩)
  else if l.length > 10 then
    match parseDatePart (l.take 10) with
    | some (y, mo, da) =>
      let timeChars := l.drop 11
      let (core, tzPart) := splitAtSign timeChars
      match parseHMS core, tzPart with
      | some (h, mi, se), none => some ⟨y, mo, da, h, mi, se, false⟩
      | some (h, mi, se), some tz =>
        if (parseHMS tz).isSome then some ⟨y, mo, da, h, mi, se, true⟩ else none
      | none, _ => none
    | none => none
  else none

/-- `datetime.fromisoformat` on a string. -/
def pyFromIso (s : String) : Option PyDateTime :=
  pyFromIso' s.data

/-- `s.endswith('Z')`. -/
def endsWithZ (l : List Char) : Bool :=
  match l.getLast? with
  | some c => c = 'Z'
  | none => false

/-- `s.replace('Z', '+00:00')` (single-character pattern). -/
def replaceZ (l : List Char) : List Char :=
  l.foldr (fun c acc => (if c = 'Z' then "+00:00".data else [c]) ++ acc) []

/-- The `updated_time` computation of `generate_resume_report`: normalize a
trailing `Z` to `+00:00`, parse, and strip timezone information for a naive
comparison, exactly as in the source. -/
def parsedUpdate (a : ProjectAnalysis) : Option PyDateTime :=
  let u := a.repo.updated_at.data
  let u := if endsWithZ u then replaceZ u else u
  (pyFromIso' u).map (fun t => if t.tzAware then t.stripTz else t)

/-- `GitHubMonitor._is_significant_update`. -/
def isSignificantUpdate (a : ProjectAnalysis) : Bool :=
  decide (1/2 < a.complexity_score) || a.ai_collaboration
    || decide (5 < a.repo.stars) || decide (3 < a.key_features.length)

/-- `cutoff_date = datetime.now() - timedelta(days=days_back)`, in naive
seconds. -/
def cutoffSeconds (now : Int) (days_back : Int) : Int :=
  now - days_back * 86400

/-- The `recent_projects` list built by the loop of `generate_resume_report`:
projects whose timestamp parses and whose naive instant is strictly after the
cutoff, in input order. -/
def recentProjects (now : Int) (days_back : Int)
    (analyses : List ProjectAnalysis) : List ProjectAnalysis :=
  analyses.filter (fun a =>
    match parsedUpdate a with
    | some t => decide (cutoffSeconds now days_back < t.naiveSeconds)
    | none => false)

/-- The `updated_projects` list built by the same loop: on a timestamp parse
failure the `continue` in the `except` branch skips the significance check,
so a project enters this list only when its timestamp parses. -/
def significantProjects (analyses : List ProjectAnalysis) :
    List ProjectAnalysis :=
  analyses.filter (fun a => (parsedUpdate a).isSome && isSignificantUpdate a)

/-- One increment of a `defaultdict(int)`-style counter kept in insertion
order. -/
def bumpKey (key : String) : List (String × Nat) → List (String × Nat)
  | [] => [(key, 1)]
  | (k, n) :: rest =>
    if k = key then (k, n + 1) :: rest else (k, n) :: bumpKey key rest

/-- Count occurrences, keys in first-occurrence order (insertion-ordered
`defaultdict(int)`). -/
def countOcc (l : List String) : List (String × Nat) :=
  l.foldl (fun acc k => bumpKey k acc) []

/-- Stable insertion for a descending sort by key (ties keep input order,
like Python's stable `sorted(..., reverse=True)`). -/
def insertDescBy {α : Type} {β : Type} [LT β] [DecidableRel (@LT.lt β _)]
    (key : α → β) (x : α) : List α → List α
  | [] => [x]
  | y :: rest =>
    if key x < key y then y :: insertDescBy key x rest else x :: y :: rest

/-- Stable descending sort by key (model of Python's stable
`sorted(..., key=..., reverse=True)`). -/
def sortDescBy {α : Type} {β : Type} [LT β] [DecidableRel (@LT.lt β _)]
    (key : α → β) : List α → List α
  | [] => []
  | x :: rest => insertDescBy key x (sortDescBy key rest)

/-- `GitHubMonitor._generate_project_stats`. -/
structure ProjectStats where
  project_types : List (String × Nat)
  tech_stack_usage : List (String × Nat)
  deriving DecidableEq, Repr

/-- `GitHubMonitor._generate_project_stats`. -/
def generateProjectStats (analyses : List ProjectAnalysis) : ProjectStats :=
  { project_types := countOcc (analyses.map (fun a => a.project_type))
    tech_stack_usage :=
      sortDescBy (fun p => p.2)
        (countOcc (analyses.foldl (fun acc a => acc ++ a.tech_stack) [])) }

/-- `GitHubMonitor._generate_skill_matrix`. -/
def generateSkillMatrix (analyses : List ProjectAnalysis) :
    List (String × Nat) :=
  sortDescBy (fun p => p.2)
    (analyses.foldl (fun acc a =>
      let acc := a.tech_stack.foldl (fun ac t => bumpKey t ac) acc
      let acc := if a.ai_collaboration then bumpKey "AI协作" acc else acc
      a.role_suggestions.foldl (fun ac ro => bumpKey ro ac) acc) [])

/-- The ranking score of `_select_featured_projects`. -/
def featuredScore (a : ProjectAnalysis) : ℚ :=
  a.complexity_score * (4/10) + (if a.ai_collaboration then 3/10 else 0)
    + min ((a.repo.stars : ℚ) / 100) (2/10)
    + min ((a.repo.forks : ℚ) / 50) (1/10)

/-- `GitHubMonitor._select_featured_projects` (stable descending sort on the
score, take the first `limit`). -/
def selectFeaturedProjects (analyses : List ProjectAnalysis) (limit : Nat) :
    List ProjectAnalysis :=
  ((sortDescBy (fun p => p.1)
      (analyses.map (fun a => (featuredScore a, a)))).map
    (fun p => p.2)).take limit

/-- Python `round(x, 2)` (round-half-even), on exact rationals. -/
def roundHalfEven (q : ℚ) : Int :=
  let f := ⌊q⌋
  let frac := q - f
  if 1/2 < frac then f + 1
  else if frac < 1/2 then f
  else if f % 2 = 0 then f else f + 1

/-- `round(x, 2)`. -/
def pyRound2 (q : ℚ) : ℚ :=
  (roundHalfEven (q * 100) : ℚ) / 100

/-- The per-project dict produced by `_format_project_for_report`. -/
structure FormattedProject where
  name : String
  description : String
  project_type : String
  business_value : String
  complexity_score : ℚ
  ai_collaboration : Bool
  estimated_duration : String
  tech_stack : List String
  key_features : List String
  role_suggestions : List String
  stars : Nat
  last_updated : String
  is_private : Bool
  deriving DecidableEq, Repr

/-- `GitHubMonitor._format_project_for_report`. -/
def formatProjectForReport (a : ProjectAnalysis) : FormattedProject :=
  { name := a.repo.name
    description := a.repo.description
    project_type := a.project_type
    business_value := a.business_value
    complexity_score := pyRound2 a.complexity_score
    ai_collaboration := a.ai_collaboration
    estimated_duration := a.estimated_duration
    tech_stack := a.tech_stack.take 5
    key_features := a.key_features
    role_suggestions := a.role_suggestions
    stars := a.repo.stars
    last_updated := a.repo.updated_at
    is_private := a.repo.is_private }

/-- `GitHubMonitor._generate_update_suggestions` (the `updated_projects`
argument is unused in the source as well; `set(...)` iteration is modelled
as first-occurrence order). -/
def generateUpdateSuggestions (recent : List ProjectAnalysis)
    (_updated : List ProjectAnalysis) : List String :=
  let suggestions : List String := []
  let suggestions := if recent.length > 0 then
      suggestions ++ ["发现 " ++ toString recent.length
        ++ " 个最近更新的项目，建议更新项目展示部分"]
    else suggestions
  let ai_projects := recent.filter (fun p => p.ai_collaboration)
  let suggestions := if ai_projects.length > 0 then
      suggestions ++ ["新增 " ++ toString ai_projects.length
        ++ " 个AI协作项目，突出AI专家定位"]
    else suggestions
  let high_value := recent.filter
    (fun p => isSub "高价值".data p.business_value.data)
  let suggestions := if high_value.length > 0 then
      suggestions ++ ["有 " ++ toString high_value.length
        ++ " 个高价值项目值得重点展示"]
    else suggestions
  let new_skills := (recent.foldl (fun acc p => acc ++ p.tech_stack) []).eraseDups
  let suggestions := if new_skills.length > 0 then
      suggestions ++ ["新增技能标签: " ++ String.intercalate ", " (new_skills.take 5)]
    else suggestions
  suggestions

/-- `GitHubMonitor._generate_recommendations`.  On an empty collection the
source raises `ZeroDivisionError` at `ai_count / total_count`; the raise is
modelled as `none`. -/
def generateRecommendations (analyses : List ProjectAnalysis) :
    Option (List String) :=
  let ai_count := (analyses.filter (fun a => a.ai_collaboration)).length
  let total_count := analyses.length
  if total_count = 0 then none
  else some (
    let recommendations : List String := []
    let recommendations := if 6/10 < (ai_count : ℚ) / (total_count : ℚ) then
        recommendations ++ ["AI协作项目比例很高，建议突出\x27AI协作专家\x27定位"]
      else recommendations
    let avg_complexity :=
      (analyses.map (fun a => a.complexity_score)).sum / (total_count : ℚ)
    let recommendations := if 6/10 < avg_complexity then
        recommendations ++ ["项目整体复杂度较高，体现了高级技术能力"]
      else recommendations
    let private_count := (analyses.filter (fun a => a.repo.is_private)).length
    let recommendations := if (total_count : ℚ) * (8/10) < (private_count : ℚ) then
        recommendations ++ ["私有项目较多，考虑开源部分优秀项目提升影响力"]
      else recommendations
    recommendations)

/-- The summary block of the report dict. -/
structure ReportSummary where
  total_repos : Nat
  recent_updates : Nat
  significant_updates : Nat
  ai_projects : Nat
  avg_complexity : ℚ
  deriving DecidableEq, Repr

/-- The report dict of `generate_resume_report`. -/
structure ResumeReport where
  generated_at : String
  summary : ReportSummary
  project_stats : ProjectStats
  skill_matrix : List (String × Nat)
  featured_projects : List FormattedProject
  recent_updates : List FormattedProject
  update_suggestions : List String
  recommendations : List String
  deriving DecidableEq, Repr

/-- `GitHubMonitor.generate_resume_report`.  The clock is passed explicitly:
`now` is `datetime.now()` in naive seconds and `nowIso` its
`isoformat()` string.  On an empty collection the source raises
`ZeroDivisionError` at `'avg_complexity': sum(...) / len(analyses)`
(and again inside `_generate_recommendations`); the raise is modelled as
`none`. -/
def generateResumeReport (now : Int) (nowIso : String) (days_back : Int)
    (analyses : List ProjectAnalysis) : Option ResumeReport :=
  let recent := recentProjects now days_back analyses
  let updated := significantProjects analyses
  let stats := generateProjectStats analyses
  let skill_matrix := generateSkillMatrix analyses
  let featured := selectFeaturedProjects analyses 5
  let update_suggestions := generateUpdateSuggestions recent updated
  if analyses.length = 0 then none
  else
    (generateRecommendations analyses).map (fun recommendations =>
      { generated_at := nowIso
        summary :=
          { total_repos := analyses.length
            recent_updates := recent.length
            significant_updates := updated.length
            ai_projects := (analyses.filter (fun a => a.ai_collaboration)).length
            avg_complexity :=
              (analyses.map (fun a => a.complexity_score)).sum
                / (analyses.length : ℚ) }
        project_stats := stats
        skill_matrix := skill_matrix
        featured_projects := featured.map formatProjectForReport
        recent_updates := recent.map formatProjectForReport
        update_suggestions := update_suggestions
        recommendations := recommendations })

/-- C1: evaluation at the failing input.  On an empty classification
collection `generate_resume_report` divides by `len(analyses)` when
computing `avg_complexity` (github_monitor.py:719) and
`_generate_recommendations` divides by `total_count` (line 948); neither
ratio short-circuits, so the aggregation raises `ZeroDivisionError`
(modelled as `none`) instead of returning a report.  On any non-empty
collection a report is returned. -/
theorem report_fails_on_empty_collection :
    generateResumeReport 0 "2025-08-30T12:00:00" 30 [] = none ∧
    generateRecommendations [] = none ∧
    ∀ (now : Int) (nowIso : String) (days_back : Int) (a : ProjectAnalysis)
      (rest : List ProjectAnalysis),
      (generateResumeReport now nowIso days_back (a :: rest)).isSome = true := by
  refine ⟨rfl, rfl, ?_⟩
  intro now nowIso days_back a rest
  simp [generateResumeReport, generateRecommendations]

/-- Witness for C1 at concrete non-empty input. -/
theorem report_fails_on_empty_collection_witness :
    (generateResumeReport 0 "2025-08-30T12:00:00" 30
      [analyzeProject bvBoundaryRepo]).isSome = true :=
  report_fails_on_empty_collection.2.2 0 "2025-08-30T12:00:00" 30
    (analyzeProject bvBoundaryRepo) []

/-- C5 (amended): a project appears in the significant-updates set iff its
last-updated timestamp parses successfully AND (complexity > 0.5 OR the AI
flag is set OR stars > 5 OR key-feature count > 3).  The `continue` in the
parse-failure branch of the loop skips the significance check, so the set is
not independent of timestamp parseability (recency itself is still not
considered). -/
theorem significant_updates_iff (analyses : List ProjectAnalysis)
    (a : ProjectAnalysis) :
    a ∈ significantProjects analyses ↔
      a ∈ analyses ∧ (parsedUpdate a).isSome = true ∧
        (1/2 < a.complexity_score ∨ a.ai_collaboration = true ∨
          5 < a.repo.stars ∨ 3 < a.key_features.length) := by
  simp [significantProjects, List.mem_filter, isSignificantUpdate,
    Bool.and_eq_true, Bool.or_eq_true, decide_eq_true_eq, and_assoc, or_assoc]

/-- Witness for C5's amended characterization at a concrete project. -/
theorem significant_updates_iff_witness :
    analyzeProject bvBoundaryRepo
      ∈ significantProjects [analyzeProject bvBoundaryRepo] :=
  (significant_updates_iff [analyzeProject bvBoundaryRepo]
      (analyzeProject bvBoundaryRepo)).mpr
    ⟨List.mem_singleton.mpr rfl, rfl,
      Or.inr (Or.inr (Or.inl (by decide)))⟩

/-- A record whose `updated_at` does not parse but which satisfies the
significance predicate (its corpus contains the AI keyword "ai"). -/
def badTimestampRepo : Repository :=
  { name := "tool", full_name := "u/tool", description := "ai assistant",
    language := "", languages := [], topics := [], stars := 0, forks := 0,
    created_at := "x", updated_at := "not-a-timestamp", pushed_at := "x",
    size := 0, open_issues := 0, is_private := false }

/-- Counterexample for C5 as stated: this classified project satisfies the
significance predicate (AI flag true) yet is excluded from the
significant-updates set because its timestamp fails to parse. -/
theorem significant_updates_counterexample :
    (analyzeProject badTimestampRepo).ai_collaboration = true ∧
    parsedUpdate (analyzeProject badTimestampRepo) = none ∧
    significantProjects [analyzeProject badTimestampRepo] = [] ∧
    analyzeProject badTimestampRepo
      ∉ significantProjects [analyzeProject badTimestampRepo] := by
  have h3 : significantProjects [analyzeProject badTimestampRepo] = [] := by
    decide
  exact ⟨by decide, by decide, h3, by rw [h3]; exact List.not_mem_nil _⟩

/-- A record last updated 29 days before the reference clock below. -/
def recent29Repo : Repository :=
  { name := "fresh", full_name := "u/fresh", description := "", language := "",
    languages := [], topics := [], stars := 0, forks := 0,
    created_at := "2025-08-01T12:00:00Z", updated_at := "2025-08-01T12:00:00Z",
    pushed_at := "2025-08-01T12:00:00Z", size := 0, open_issues := 0,
    is_private := false }

/-- A record last updated 31 days before the reference clock below. -/
def old31Repo : Repository :=
  { name := "stale", full_name := "u/stale", description := "", language := "",
    languages := [], topics := [], stars := 0, forks := 0,
    created_at := "2025-07-30T12:00:00Z", updated_at := "2025-07-30T12:00:00Z",
    pushed_at := "2025-07-30T12:00:00Z", size := 0, open_issues := 0,
    is_private := false }

/-- Reference clock 2025-08-30 12:00:00 (naive seconds). -/
def reportNow : Int :=
  (PyDateTime.mk 2025 8 30 12 0 0 false).naiveSeconds

/-- C6: a project is in the recent-updates set iff its last-updated instant,
normalized to a timezone-naive representation, is strictly after now minus
the 30-day window; a parse failure excludes the project without aborting;
concretely, a project updated 29 days ago is recent and one updated 31 days
ago is not. -/
theorem recent_updates_iff (analyses : List ProjectAnalysis) (now : Int)
    (a : ProjectAnalysis) :
    (a ∈ recentProjects now 30 analyses ↔
      a ∈ analyses ∧ ∃ t : PyDateTime, parsedUpdate a = some t ∧
        now - 30 * 86400 < t.naiveSeconds) ∧
    ((recentProjects reportNow 30
        [analyzeProject recent29Repo, analyzeProject old31Repo]).map
      (fun p => p.repo.name) = ["fresh"]) := by
  constructor
  · simp only [recentProjects, List.mem_filter]
    refine and_congr_right fun _ => ?_
    cases h : parsedUpdate a <;> simp [h, cutoffSeconds]
  · decide

/-- Witness for C6: the concrete 29-day/31-day instance. -/
theorem recent_updates_iff_witness :
    (recentProjects reportNow 30
        [analyzeProject recent29Repo, analyzeProject old31Repo]).map
      (fun p => p.repo.name) = ["fresh"] :=
  (recent_updates_iff [] 0 (analyzeProject recent29Repo)).2

lemma pyMaxGo_split (cur : String × Nat) (l : List (String × Nat)) :
    ∃ pre post, cur :: l = pre ++ pyMaxGo cur l :: post ∧
      (∀ p ∈ pre, p.2 < (pyMaxGo cur l).2) ∧
      (∀ p ∈ post, p.2 ≤ (pyMaxGo cur l).2) := by
  induction l generalizing cur with
  | nil => exact ⟨[], [], rfl, by simp, by simp⟩
  | cons p rest ih =>
    by_cases hp : p.2 > cur.2
    · have hX : pyMaxGo cur (p :: rest) = pyMaxGo p rest := by
        simp [pyMaxGo, hp]
      obtain ⟨pre, post, hdec, hpre, hpost⟩ := ih p
      have hcur : cur.2 < (pyMaxGo p rest).2 := by
        rcases pre with _ | ⟨q, pre2⟩
        · injection hdec with h1 _
          rw [← h1]; exact hp
        · injection hdec with h1 _
          have hq := hpre q (by simp)
          rw [h1] at hp
          omega
      refine ⟨cur :: pre, post, ?_, ?_, ?_⟩
      · rw [hX]
        simpa using hdec
      · intro q hq
        rw [hX]
        rcases List.mem_cons.mp hq with h | h
        · rw [h]; exact hcur
        · exact hpre q h
      · intro q hq
        rw [hX]
        exact hpost q hq
    · have hX : pyMaxGo cur (p :: rest) = pyMaxGo cur rest := by
        simp [pyMaxGo, hp]
      obtain ⟨pre, post, hdec, hpre, hpost⟩ := ih cur
      rcases pre with _ | ⟨q, pre2⟩
      · injection hdec with h1 h2
        refine ⟨[], p :: post, ?_, by simp, ?_⟩
        · rw [hX, ← h1, ← h2]
          rfl
        · intro q hq
          rw [hX]
          rcases List.mem_cons.mp hq with h | h
          · rw [h, ← h1]
            omega
          · exact hpost q h
      · injection hdec with h1 h2
        refine ⟨cur :: p :: pre2, post, ?_, ?_, ?_⟩
        · rw [hX]
          conv_lhs => rw [h2]
          simp
        · intro q2 hq2
          rw [hX]
          rcases List.mem_cons.mp hq2 with h | h
          · have hcurlt := hpre q (by simp)
            rw [← h1] at hcurlt
            rw [h]
            exact hcurlt
          · rcases List.mem_cons.mp h with h' | h'
            · have hcurlt := hpre q (by simp)
              rw [← h1] at hcurlt
              rw [h']
              omega
            · exact hpre q2 (by simp [h'])
        · intro q2 hq2
          rw [hX]
          exact hpost q2 hq2

lemma filterMap_eq_append_cons {α β : Type} (g : α → Option β) :
    ∀ (T : List α) (pre : List β) (x : β) (post : List β),
      T.filterMap g = pre ++ x :: post →
      ∃ A a B, T = A ++ a :: B ∧ g a = some x ∧
        A.filterMap g = pre ∧ B.filterMap g = post := by
  intro T
  induction T with
  | nil =>
    intro pre x post h
    rw [List.filterMap_nil] at h
    exact absurd h.symm (by simp)
  | cons t T ih =>
    intro pre x post h
    rw [List.filterMap_cons] at h
    cases hg : g t with
    | none =>
      rw [hg] at h
      obtain ⟨A, a, B, h1, h2, h3, h4⟩ := ih pre x post h
      exact ⟨t :: A, a, B, by simp [h1], h2,
        by simp [List.filterMap_cons, hg, h3], h4⟩
    | some b =>
      rw [hg] at h
      rcases pre with _ | ⟨p, pre2⟩
      · injection h with h1 h2
        exact ⟨[], t, T, rfl, by rw [hg, h1], rfl, h2⟩
      · injection h with h1 h2
        obtain ⟨A, a, B, k1, k2, k3, k4⟩ := ih pre2 x post h2
        exact ⟨t :: A, a, B, by simp [k1], k2,
          by simp [List.filterMap_cons, hg, h1, k3], k4⟩

/-- The per-type entry of the `scores` dict in `_classify_project_type`. -/
def scoreEntry (text : List Char) (p : String × List String) :
    Option (String × Nat) :=
  if keywordScore text p.2 > 0 then some (p.1, keywordScore text p.2) else none

lemma scoreList_eq (text : List Char) :
    scoreList text = projectTypes.filterMap (scoreEntry text) := rfl

/-- C7: the classifier returns the type with the highest keyword count over
the lowercase corpus, ties broken by declaration order in `projectTypes`
(first-declared wins: all earlier-declared types score strictly less, all
later-declared ones score at most as much), and returns the fallback
"其他工具" exactly when every type scores zero. -/
theorem classify_project_type_first_max (r : Repository) :
    (classifyProjectType r = "其他工具" ∧
      ∀ p ∈ projectTypes, keywordScore (analysisText r) p.2 = 0) ∨
    (∃ A p B, projectTypes = A ++ p :: B ∧
      classifyProjectType r = p.1 ∧
      0 < keywordScore (analysisText r) p.2 ∧
      (∀ q ∈ A,
        keywordScore (analysisText r) q.2 < keywordScore (analysisText r) p.2) ∧
      (∀ q ∈ B,
        keywordScore (analysisText r) q.2 ≤ keywordScore (analysisText r) p.2)) := by
  cases hs : scoreList (analysisText r) with
  | nil =>
    left
    constructor
    · simp [classifyProjectType, hs]
    · intro p hp
      by_contra hne
      have hmem : (p.1, keywordScore (analysisText r) p.2)
          ∈ scoreList (analysisText r) := by
        rw [scoreList_eq]
        exact List.mem_filterMap.mpr
          ⟨p, hp, by simp [scoreEntry]; omega⟩
      rw [hs] at hmem
      exact absurd hmem (List.not_mem_nil _)
  | cons x rest =>
    right
    have hclass : classifyProjectType r = (pyMaxGo x rest).1 := by
      simp [classifyProjectType, hs]
    obtain ⟨pre, post, hdec, hpre, hpost⟩ := pyMaxGo_split x rest
    have hsplit : projectTypes.filterMap (scoreEntry (analysisText r))
        = pre ++ pyMaxGo x rest :: post := by
      rw [← scoreList_eq, hs, hdec]
    obtain ⟨A, a, B, hT, hga, hA, hB⟩ :=
      filterMap_eq_append_cons (scoreEntry (analysisText r))
        projectTypes pre (pyMaxGo x rest) post hsplit
    have hgx : 0 < keywordScore (analysisText r) a.2 ∧
        pyMaxGo x rest = (a.1, keywordScore (analysisText r) a.2) := by
      by_cases h0 : keywordScore (analysisText r) a.2 > 0
      · simp [scoreEntry, h0] at hga
        exact ⟨h0, hga.symm⟩
      · simp [scoreEntry, h0] at hga
    refine ⟨A, a, B, hT, ?_, hgx.1, ?_, ?_⟩
    · rw [hclass, hgx.2]
    · intro q hq
      by_cases hq0 : keywordScore (analysisText r) q.2 > 0
      · have hmem : (q.1, keywordScore (analysisText r) q.2) ∈ pre := by
          rw [← hA]
          exact List.mem_filterMap.mpr ⟨q, hq, by simp [scoreEntry, hq0]⟩
        have := hpre _ hmem
        rw [hgx.2] at this
        exact this
      · have hz : keywordScore (analysisText r) q.2 = 0 := by omega
        rw [hz]
        exact hgx.1
    · intro q hq
      by_cases hq0 : keywordScore (analysisText r) q.2 > 0
      · have hmem : (q.1, keywordScore (analysisText r) q.2) ∈ post := by
          rw [← hB]
          exact List.mem_filterMap.mpr ⟨q, hq, by simp [scoreEntry, hq0]⟩
        have := hpost _ hmem
        rw [hgx.2] at this
        exact this
      · have hz : keywordScore (analysisText r) q.2 = 0 := by omega
        rw [hz]
        exact Nat.zero_le _

/-- Witness for C7 at a concrete record: the classifier returns the fallback
or one of the declared type labels. -/
theorem classify_project_type_first_max_witness :
    classifyProjectType badTimestampRepo = "其他工具" ∨
    ∃ p ∈ projectTypes, classifyProjectType badTimestampRepo = p.1 := by
  rcases classify_project_type_first_max badTimestampRepo with
    ⟨h, _⟩ | ⟨A, p, B, hT, hclass, _, _, _⟩
  · exact Or.inl h
  · exact Or.inr ⟨p, by rw [hT]; simp, hclass⟩

/-- ASCII whitespace recognized by the `\s` class of the stripping regexes. -/
def isSpaceChar (c : Char) : Bool :=
  c = ' ' ∨ c = '\t' ∨ c = '\n' ∨ c = '\r' ∨ c = '\x0b' ∨ c = '\x0c'

/-- Consume up to `k` further `#` characters (the `#{1,6}` part after the
first `#`). -/
def dropHashes : Nat → List Char → List Char
  | 0, l => l
  | _ + 1, [] => []
  | k + 1, c :: rest => if c = '#' then dropHashes k rest else c :: rest

lemma dropHashes_length_le : ∀ (k : Nat) (l : List Char),
    (dropHashes k l).length ≤ l.length := by
  intro k
  induction k with
  | zero => intro l; simp [dropHashes]
  | succ k ih =>
    intro l
    cases l with
    | nil => simp [dropHashes]
    | cons c rest =>
      simp only [dropHashes]
      split_ifs
      · exact (ih rest).trans (by simp)
      · simp

lemma dropWhile_length_le (p : Char → Bool) (l : List Char) :
    (l.dropWhile p).length ≤ l.length := by
  induction l with
  | nil => simp [List.dropWhile]
  | cons c rest ih =>
    rw [List.dropWhile]
    cases hp : p c
    · simp
    · exact ih.trans (by simp)

/-- `re.sub(r'#{1,6}\s*', '', text)`: at each `#`, remove one to six hashes
and the following whitespace run, then continue after the match. -/
def subHeading : List Char → List Char
  | [] => []
  | c :: rest =>
    if c = '#' then
      subHeading (List.dropWhile isSpaceChar (dropHashes 5 rest))
    else c :: subHeading rest
termination_by l => l.length
decreasing_by
  · simp only [List.length_cons]
    exact Nat.lt_succ_of_le
      ((dropWhile_length_le _ _).trans (dropHashes_length_le _ _))
  · simp

/-- Search for the first `**` (bold closer) with no intervening newline:
returns the skipped content and the remainder after the closer. -/
def findClose2 : List Char → Option (List Char × List Char)
  | [] => none
  | c :: rest =>
    if c = '\n' then none
    else if c = '*' ∧ rest.head? = some '*' then some ([], rest.tail)
    else (findClose2 rest).map (fun pr => (c :: pr.1, pr.2))

lemma findClose2_decomp : ∀ (l a b : List Char),
    findClose2 l = some (a, b) → l = a ++ '*' :: '*' :: b := by
  intro l
  induction l with
  | nil => intro a b h; simp [findClose2] at h
  | cons c rest ih =>
    intro a b h
    simp only [findClose2] at h
    split_ifs at h with h1 h2
    · simp only [Option.some.injEq, Prod.mk.injEq] at h
      obtain ⟨ha, hb⟩ := h
      obtain ⟨hc, hh⟩ := h2
      subst ha
      subst hc
      cases rest with
      | nil => simp at hh
      | cons d rest2 =>
        simp only [List.head?_cons, Option.some.injEq] at hh
        subst hh
        simp only [List.tail_cons] at hb
        subst hb
        rfl
    · simp only [Option.map_eq_some'] at h
      obtain ⟨pr, hpr, hab⟩ := h
      have hrest := ih pr.1 pr.2 (by rw [hpr])
      cases hab
      rw [hrest]
      rfl

/-- Search for the first occurrence of `stop` with no intervening newline. -/
def findCloseCh (stop : Char) : List Char → Option (List Char × List Char)
  | [] => none
  | c :: rest =>
    if c = '\n' then none
    else if c = stop then some ([], rest)
    else (findCloseCh stop rest).map (fun pr => (c :: pr.1, pr.2))

lemma findCloseCh_decomp (stop : Char) : ∀ (l a b : List Char),
    findCloseCh stop l = some (a, b) → l = a ++ stop :: b := by
  intro l
  induction l with
  | nil => intro a b h; simp [findCloseCh] at h
  | cons c rest ih =>
    intro a b h
    simp only [findCloseCh] at h
    split_ifs at h with h1 h2
    · simp only [Option.some.injEq, Prod.mk.injEq] at h
      obtain ⟨ha, hb⟩ := h
      subst ha
      subst hb
      subst h2
      rfl
    · simp only [Option.map_eq_some'] at h
      obtain ⟨pr, hpr, hab⟩ := h
      have hrest := ih pr.1 pr.2 (by rw [hpr])
      cases hab
      rw [hrest]
      rfl

/-- Search for the first `](` (link-text closer) with no intervening
newline. -/
def findBrkClose : List Char → Option (List Char × List Char)
  | [] => none
  | c :: rest =>
    if c = '\n' then none
    else if c = ']' ∧ rest.head? = some '(' then some ([], rest.tail)
    else (findBrkClose rest).map (fun pr => (c :: pr.1, pr.2))

lemma findBrkClose_decomp : ∀ (l a b : List Char),
    findBrkClose l = some (a, b) → l = a ++ ']' :: '(' :: b := by
  intro l
  induction l with
  | nil => intro a b h; simp [findBrkClose] at h
  | cons c rest ih =>
    intro a b h
    simp only [findBrkClose] at h
    split_ifs at h with h1 h2
    · simp only [Option.some.injEq, Prod.mk.injEq] at h
      obtain ⟨ha, hb⟩ := h
      obtain ⟨hc, hh⟩ := h2
      subst ha
      subst hc
      cases rest with
      | nil => simp at hh
      | cons d rest2 =>
        simp only [List.head?_cons, Option.some.injEq] at hh
        subst hh
        simp only [List.tail_cons] at hb
        subst hb
        rfl
    · simp only [Option.map_eq_some'] at h
      obtain ⟨pr, hpr, hab⟩ := h
      have hrest := ih pr.1 pr.2 (by rw [hpr])
      cases hab
      rw [hrest]
      rfl

lemma findClose2_rest_lt {l a b : List Char} (h : findClose2 l = some (a, b)) :
    b.length < l.length := by
  have := findClose2_decomp l a b h
  subst this
  simp
  omega

lemma findCloseCh_rest_lt {stop : Char} {l a b : List Char}
    (h : findCloseCh stop l = some (a, b)) : b.length < l.length := by
  have := findCloseCh_decomp stop l a b h
  subst this
  simp
  omega

lemma findBrkClose_rest_lt {l a b : List Char}
    (h : findBrkClose l = some (a, b)) : b.length < l.length := by
  have := findBrkClose_decomp l a b h
  subst this
  simp
  omega

/-- `re.sub(r'\*\*(.*?)\*\*', r'\1', text)`: replace each bold span by its
content (matches cannot cross a newline; on no closer the scan advances one
character, as the regex engine does). -/
def subBold : List Char → List Char
  | [] => []
  | c :: rest =>
    if c = '*' ∧ rest.head? = some '*' then
      match hfc : findClose2 rest.tail with
      | some (content, rest2) => content ++ subBold rest2
      | none => c :: subBold rest
    else c :: subBold rest
termination_by l => l.length
decreasing_by
  · simp only [List.length_cons]
    have h1 := findClose2_rest_lt hfc
    have h2 : rest.tail.length ≤ rest.length := by
      cases rest <;> simp
    omega
  · simp
  · simp

/-- `re.sub(r'\*(.*?)\*', r'\1', text)`. -/
def subItalic : List Char → List Char
  | [] => []
  | c :: rest =>
    if c = '*' then
      match hfc : findCloseCh '*' rest with
      | some (content, rest2) => content ++ subItalic rest2
      | none => c :: subItalic rest
    else c :: subItalic rest
termination_by l => l.length
decreasing_by
  · simp only [List.length_cons]
    have := findCloseCh_rest_lt hfc
    omega
  · simp
  · simp

/-- `re.sub(r'\[(.*?)\]\(.*?\)', r'\1', text)`: replace each link by its
bracketed text, dropping the URL part. -/
def subLink : List Char → List Char
  | [] => []
  | c :: rest =>
    if c = '[' then
      match hb : findBrkClose rest with
      | some (content, rest2) =>
        match hp : findCloseCh ')' rest2 with
        | some (_url, rest3) => content ++ subLink rest3
        | none => c :: subLink rest
      | none => c :: subLink rest
    else c :: subLink rest
termination_by l => l.length
decreasing_by
  · simp only [List.length_cons]
    have h1 := findBrkClose_rest_lt hb
    have h2 := findCloseCh_rest_lt hp
    omega
  · simp
  · simp
  · simp

/-- `re.sub(r'`(.*?)`', r'\1', text)` (backtick written as `\x60`). -/
def subCode : List Char → List Char
  | [] => []
  | c :: rest =>
    if c = '\x60' then
      match hfc : findCloseCh '\x60' rest with
      | some (content, rest2) => content ++ subCode rest2
      | none => c :: subCode rest
    else c :: subCode rest
termination_by l => l.length
decreasing_by
  · simp only [List.length_cons]
    have := findCloseCh_rest_lt hfc
    omega
  · simp
  · simp

/-- `ResumeReportGenerator._generate_text_report`: the plain-text rendering
is the structured-markup rendering with the five fixed substitution rules
applied, in source order. -/
def stripMarkdown (s : String) : String :=
  String.mk (subCode (subLink (subItalic (subBold (subHeading s.data)))))

/-- `t` is obtained from `s` by deleting only characters satisfying `P`. -/
inductive DelOnly (P : Char → Prop) : List Char → List Char → Prop where
  | nil : DelOnly P [] []
  | keep (c : Char) (s t : List Char) : DelOnly P s t → DelOnly P (c :: s) (c :: t)
  | del (c : Char) (s t : List Char) : P c → DelOnly P s t → DelOnly P (c :: s) t

lemma DelOnly.keepAll {P : Char → Prop} : ∀ s : List Char, DelOnly P s s
  | [] => DelOnly.nil
  | c :: rest => DelOnly.keep c rest rest (DelOnly.keepAll rest)

lemma DelOnly.append {P : Char → Prop} {s1 t1 s2 t2 : List Char}
    (h1 : DelOnly P s1 t1) (h2 : DelOnly P s2 t2) :
    DelOnly P (s1 ++ s2) (t1 ++ t2) := by
  induction h1 with
  | nil => exact h2
  | keep c s t _ ih => exact DelOnly.keep c _ _ ih
  | del c s t hc _ ih => exact DelOnly.del c _ _ hc ih

lemma DelOnly.mono {P Q : Char → Prop} {s t : List Char}
    (h : DelOnly P s t) (hPQ : ∀ c, P c → Q c) : DelOnly Q s t := by
  induction h with
  | nil => exact DelOnly.nil
  | keep c s t _ ih => exact DelOnly.keep c _ _ ih
  | del c s t hc _ ih => exact DelOnly.del c _ _ (hPQ c hc) ih

lemma DelOnly.trans {P : Char → Prop} {s t u : List Char}
    (h1 : DelOnly P s t) (h2 : DelOnly P t u) : DelOnly P s u := by
  induction h1 generalizing u with
  | nil => cases h2; exact DelOnly.nil
  | keep c s t _ ih =>
    cases h2 with
    | keep _ _ u' h2' => exact DelOnly.keep c _ _ (ih h2')
    | del _ _ u' hc h2' => exact DelOnly.del c _ _ hc (ih h2')
  | del c s t hc _ ih => exact DelOnly.del c _ _ hc (ih h2)

lemma DelOnly.mem_subset {P : Char → Prop} {s t : List Char}
    (h : DelOnly P s t) {c : Char} (hc : c ∈ t) : c ∈ s := by
  induction h with
  | nil => exact hc
  | keep d s' t' _ ih =>
    rcases List.mem_cons.mp hc with h' | h'
    · exact h' ▸ List.mem_cons_self _ _
    · exact List.mem_cons_of_mem _ (ih h')
  | del d s' t' _ _ ih => exact List.mem_cons_of_mem _ (ih hc)

/-- `u` occurs contiguously inside `l`. -/
def OccursIn (u l : List Char) : Prop :=
  ∃ x y : List Char, l = x ++ u ++ y

lemma DelOnly.keepLeading {P : Char → Prop} :
    ∀ {s t : List Char}, DelOnly P s t →
    ∀ (u rest : List Char), (∀ c ∈ u, ¬ P c) → s = u ++ rest →
    ∃ rest2, t = u ++ rest2 ∧ DelOnly P rest rest2 := by
  intro s t h
  induction h with
  | nil =>
    intro u rest _ hs
    rcases List.append_eq_nil.mp hs.symm with ⟨hu, hr⟩
    exact ⟨[], by simp [hu], by rw [hr]; exact DelOnly.nil⟩
  | keep c s' t' h' ih =>
    intro u rest hu hs
    cases u with
    | nil =>
      refine ⟨c :: t', by simp, ?_⟩
      simp only [List.nil_append] at hs
      rw [← hs]
      exact DelOnly.keep c _ _ h'
    | cons d u' =>
      simp only [List.cons_append, List.cons.injEq] at hs
      obtain ⟨hdc, hs'⟩ := hs
      subst hdc
      obtain ⟨rest2, ht, hd⟩ := ih u' rest (fun c hc => hu c (List.mem_cons_of_mem _ hc)) hs'
      exact ⟨rest2, by simp [ht], hd⟩
  | del c s' t' hc h' ih =>
    intro u rest hu hs
    cases u with
    | nil =>
      refine ⟨t', by simp, ?_⟩
      simp only [List.nil_append] at hs
      rw [← hs]
      exact DelOnly.del c _ _ hc h'
    | cons d u' =>
      simp only [List.cons_append, List.cons.injEq] at hs
      obtain ⟨hdc, hs'⟩ := hs
      exact absurd (hdc ▸ hc) (hu d (List.mem_cons_self _ _))

lemma DelOnly.occursIn_preserved {P : Char → Prop} :
    ∀ {s t : List Char}, DelOnly P s t →
    ∀ u : List Char, u ≠ [] → (∀ c ∈ u, ¬ P c) →
    OccursIn u s → OccursIn u t := by
  intro s t h
  induction h with
  | nil =>
    intro u hne _ hocc
    obtain ⟨x, y, hxy⟩ := hocc
    rcases List.append_eq_nil.mp hxy.symm with ⟨h1, _⟩
    rcases List.append_eq_nil.mp h1 with ⟨_, h2⟩
    exact absurd h2 hne
  | keep c s' t' h' ih =>
    intro u hne hu hocc
    obtain ⟨x, y, hxy⟩ := hocc
    cases x with
    | nil =>
      cases u with
      | nil => exact absurd rfl hne
      | cons d u' =>
        simp only [List.nil_append, List.cons_append, List.cons.injEq] at hxy
        obtain ⟨hdc, hs'⟩ := hxy
        subst hdc
        obtain ⟨rest2, ht, _⟩ := h'.keepLeading u' y
          (fun c hc => hu c (List.mem_cons_of_mem _ hc)) hs'
        exact ⟨[], rest2, by simp [ht]⟩
    | cons e x' =>
      simp only [List.cons_append, List.cons.injEq] at hxy
      obtain ⟨hec, hs'⟩ := hxy
      obtain ⟨x2, y2, ht⟩ := ih u hne hu ⟨x', y, hs'⟩
      exact ⟨c :: x2, y2, by simp [ht]⟩
  | del c s' t' hc h' ih =>
    intro u hne hu hocc
    obtain ⟨x, y, hxy⟩ := hocc
    cases x with
    | nil =>
      cases u with
      | nil => exact absurd rfl hne
      | cons d u' =>
        simp only [List.nil_append, List.cons_append, List.cons.injEq] at hxy
        obtain ⟨hdc, _⟩ := hxy
        exact absurd (hdc ▸ hc) (hu d (List.mem_cons_self _ _))
    | cons e x' =>
      simp only [List.cons_append, List.cons.injEq] at hxy
      obtain ⟨_, hs'⟩ := hxy
      exact ih u hne hu ⟨x', y, hs'⟩

/-- Characters that the four markup-stripping substitutions may delete
(outside of link-URL content): heading hashes, whitespace after them,
emphasis asterisks, inline-code backticks. -/
def strippedChar (c : Char) : Prop :=
  c = '#' ∨ isSpaceChar c = true ∨ c = '*' ∨ c = '\x60'

lemma dropHashes_delOnly : ∀ (k : Nat) (l : List Char),
    DelOnly strippedChar l (dropHashes k l) := by
  intro k
  induction k with
  | zero => intro l; rw [dropHashes]; exact DelOnly.keepAll l
  | succ k ih =>
    intro l
    cases l with
    | nil => rw [dropHashes]; exact DelOnly.nil
    | cons c rest =>
      rw [dropHashes]
      split_ifs with hc
      · exact DelOnly.del c _ _ (Or.inl hc) (ih rest)
      · exact DelOnly.keepAll _

lemma dropSpaces_delOnly : ∀ l : List Char,
    DelOnly strippedChar l (List.dropWhile isSpaceChar l) := by
  intro l
  induction l with
  | nil => rw [List.dropWhile]; exact DelOnly.nil
  | cons c rest ih =>
    rw [List.dropWhile]
    cases hp : isSpaceChar c
    · simp only []
      exact DelOnly.keepAll _
    · simp only []
      exact DelOnly.del c _ _ (Or.inr (Or.inl hp)) ih

lemma subHeading_delOnly : ∀ l : List Char, DelOnly strippedChar l (subHeading l)
  | [] => by rw [subHeading]; exact DelOnly.nil
  | c :: rest => by
    rw [subHeading]
    split_ifs with hc
    · exact DelOnly.del c _ _ (Or.inl hc)
        (((dropHashes_delOnly 5 rest).trans (dropSpaces_delOnly _)).trans
          (subHeading_delOnly _))
    · exact DelOnly.keep c _ _ (subHeading_delOnly rest)
termination_by l => l.length
decreasing_by
  · simp only [List.length_cons]
    exact Nat.lt_succ_of_le
      ((dropWhile_length_le _ _).trans (dropHashes_length_le _ _))
  · simp

lemma subBold_eq_close {c : Char} {rest content rest2 : List Char}
    (hcc : c = '*' ∧ rest.head? = some '*')
    (hfc : findClose2 rest.tail = some (content, rest2)) :
    subBold (c :: rest) = content ++ subBold rest2 := by
  rw [subBold, if_pos hcc]
  split
  · rename_i content' rest2' hfc'
    rw [hfc] at hfc'
    simp only [Option.some.injEq, Prod.mk.injEq] at hfc'
    rw [hfc'.1, hfc'.2]
  · rename_i hfc'
    rw [hfc] at hfc'
    simp at hfc'

lemma subBold_eq_noclose {c : Char} {rest : List Char}
    (hcc : c = '*' ∧ rest.head? = some '*')
    (hfc : findClose2 rest.tail = none) :
    subBold (c :: rest) = c :: subBold rest := by
  rw [subBold, if_pos hcc]
  split
  · rename_i content' rest2' hfc'
    rw [hfc] at hfc'
    simp at hfc'
  · rfl

lemma subBold_eq_skip {c : Char} {rest : List Char}
    (hcc : ¬ (c = '*' ∧ rest.head? = some '*')) :
    subBold (c :: rest) = c :: subBold rest := by
  rw [subBold, if_neg hcc]

lemma subBold_delOnly (l : List Char) : DelOnly strippedChar l (subBold l) := by
  induction l using subBold.induct with
  | case1 => rw [subBold]; exact DelOnly.nil
  | case2 c rest hcc content rest2 hfc ih =>
    rw [subBold_eq_close hcc hfc]
    obtain ⟨hc, hh⟩ := hcc
    subst hc
    cases rest with
    | nil => simp at hh
    | cons d r2 =>
      simp only [List.head?_cons, Option.some.injEq] at hh
      subst hh
      simp only [List.tail_cons] at hfc
      have hdec := findClose2_decomp r2 content rest2 hfc
      rw [hdec]
      exact DelOnly.del _ _ _ (Or.inr (Or.inr (Or.inl rfl)))
        (DelOnly.del _ _ _ (Or.inr (Or.inr (Or.inl rfl)))
          ((DelOnly.keepAll content).append
            (DelOnly.del _ _ _ (Or.inr (Or.inr (Or.inl rfl)))
              (DelOnly.del _ _ _ (Or.inr (Or.inr (Or.inl rfl))) ih))))
  | case3 c rest hcc hfc ih =>
    rw [subBold_eq_noclose hcc hfc]
    exact DelOnly.keep c _ _ ih
  | case4 c rest hcc ih =>
    rw [subBold_eq_skip hcc]
    exact DelOnly.keep c _ _ ih

lemma subItalic_eq_close {c : Char} {rest content rest2 : List Char}
    (hc : c = '*') (hfc : findCloseCh '*' rest = some (content, rest2)) :
    subItalic (c :: rest) = content ++ subItalic rest2 := by
  rw [subItalic, if_pos hc]
  split
  · rename_i content' rest2' hfc'
    rw [hfc] at hfc'
    simp only [Option.some.injEq, Prod.mk.injEq] at hfc'
    rw [hfc'.1, hfc'.2]
  · rename_i hfc'
    rw [hfc] at hfc'
    simp at hfc'

lemma subItalic_eq_noclose {c : Char} {rest : List Char}
    (hc : c = '*') (hfc : findCloseCh '*' rest = none) :
    subItalic (c :: rest) = c :: subItalic rest := by
  rw [subItalic, if_pos hc]
  split
  · rename_i content' rest2' hfc'
    rw [hfc] at hfc'
    simp at hfc'
  · rfl

lemma subItalic_eq_skip {c : Char} {rest : List Char} (hc : ¬ c = '*') :
    subItalic (c :: rest) = c :: subItalic rest := by
  rw [subItalic, if_neg hc]

lemma subItalic_delOnly (l : List Char) : DelOnly strippedChar l (subItalic l) := by
  induction l using subItalic.induct with
  | case1 => rw [subItalic]; exact DelOnly.nil
  | case2 rest content rest2 hfc ih =>
    rw [subItalic_eq_close rfl hfc]
    have hdec := findCloseCh_decomp '*' rest content rest2 hfc
    rw [hdec]
    exact DelOnly.del _ _ _ (Or.inr (Or.inr (Or.inl rfl)))
      ((DelOnly.keepAll content).append
        (DelOnly.del _ _ _ (Or.inr (Or.inr (Or.inl rfl))) ih))
  | case3 rest hfc ih =>
    rw [subItalic_eq_noclose rfl hfc]
    exact DelOnly.keep '*' _ _ ih
  | case4 c rest hc ih =>
    rw [subItalic_eq_skip hc]
    exact DelOnly.keep c _ _ ih

lemma subCode_eq_close {c : Char} {rest content rest2 : List Char}
    (hc : c = '\x60') (hfc : findCloseCh '\x60' rest = some (content, rest2)) :
    subCode (c :: rest) = content ++ subCode rest2 := by
  rw [subCode, if_pos hc]
  split
  · rename_i content' rest2' hfc'
    rw [hfc] at hfc'
    simp only [Option.some.injEq, Prod.mk.injEq] at hfc'
    rw [hfc'.1, hfc'.2]
  · rename_i hfc'
    rw [hfc] at hfc'
    simp at hfc'

lemma subCode_eq_noclose {c : Char} {rest : List Char}
    (hc : c = '\x60') (hfc : findCloseCh '\x60' rest = none) :
    subCode (c :: rest) = c :: subCode rest := by
  rw [subCode, if_pos hc]
  split
  · rename_i content' rest2' hfc'
    rw [hfc] at hfc'
    simp at hfc'
  · rfl

lemma subCode_eq_skip {c : Char} {rest : List Char} (hc : ¬ c = '\x60') :
    subCode (c :: rest) = c :: subCode rest := by
  rw [subCode, if_neg hc]

lemma subCode_delOnly (l : List Char) : DelOnly strippedChar l (subCode l) := by
  induction l using subCode.induct with
  | case1 => rw [subCode]; exact DelOnly.nil
  | case2 rest content rest2 hfc ih =>
    rw [subCode_eq_close rfl hfc]
    have hdec := findCloseCh_decomp '\x60' rest content rest2 hfc
    rw [hdec]
    exact DelOnly.del _ _ _ (Or.inr (Or.inr (Or.inr rfl)))
      ((DelOnly.keepAll content).append
        (DelOnly.del _ _ _ (Or.inr (Or.inr (Or.inr rfl))) ih))
  | case3 rest hfc ih =>
    rw [subCode_eq_noclose rfl hfc]
    exact DelOnly.keep '\x60' _ _ ih
  | case4 c rest hc ih =>
    rw [subCode_eq_skip hc]
    exact DelOnly.keep c _ _ ih

lemma subLink_id : ∀ l : List Char, '[' ∉ l → subLink l = l
  | [] => fun _ => by rw [subLink]
  | c :: rest => fun hmem => by
    rw [subLink]
    have hc : ¬ c = '[' := fun h => hmem (h ▸ List.mem_cons_self _ _)
    rw [if_neg hc, subLink_id rest (fun h => hmem (List.mem_cons_of_mem _ h))]

/-- The composite deletion fact: when the input contains no `[`, the whole
markup-stripping pipeline only deletes hashes, whitespace, asterisks and
backticks. -/
lemma stripMarkdown_delOnly (l : List Char) (hbr : '[' ∉ l) :
    DelOnly strippedChar l (subCode (subLink (subItalic (subBold (subHeading l))))) := by
  have d1 := subHeading_delOnly l
  have d2 := subBold_delOnly (subHeading l)
  have d3 := subItalic_delOnly (subBold (subHeading l))
  have hbr3 : '[' ∉ subItalic (subBold (subHeading l)) := fun h =>
    hbr (d1.mem_subset (d2.mem_subset (d3.mem_subset h)))
  rw [subLink_id _ hbr3]
  have d5 := subCode_delOnly (subItalic (subBold (subHeading l)))
  exact ((d1.trans d2).trans d3).trans d5

/-- Characters of a numeric figure: digits, percent sign, decimal point. -/
def isFigureChar (c : Char) : Bool :=
  c.isDigit || c = '%' || c = '.'

lemma figureChar_not_stripped (c : Char) (h : isFigureChar c = true) :
    ¬ strippedChar c := by
  intro hP
  rcases hP with h' | h' | h' | h'
  · subst h'
    exact absurd h (by decide)
  · simp only [isSpaceChar, decide_eq_true_eq] at h'
    rcases h' with h' | h' | h' | h' | h' | h' <;>
      (subst h'; exact absurd h (by decide))
  · subst h'
    exact absurd h (by decide)
  · subst h'
    exact absurd h (by decide)

/-- Zero-padded two-digit field (`%m`, `%d`, `%H`, `%M`, `%S`). -/
def pad2 (n : Nat) : String :=
  if n < 10 then "0" ++ toString n else toString n

/-- `strftime('%Y年%m月%d日 %H:%M')`. -/
def fmtGeneratedAt (t : PyDateTime) : String :=
  toString t.year ++ "年" ++ pad2 t.month ++ "月" ++ pad2 t.day ++ "日 "
    ++ pad2 t.hour ++ ":" ++ pad2 t.minute

/-- `strftime('%m月%d日')`. -/
def fmtMonthDay (t : PyDateTime) : String :=
  pad2 t.month ++ "月" ++ pad2 t.day ++ "日"

/-- `strftime('%Y-%m-%d %H:%M:%S')`. -/
def fmtFullClock (t : PyDateTime) : String :=
  toString t.year ++ "-" ++ pad2 t.month ++ "-" ++ pad2 t.day ++ " "
    ++ pad2 t.hour ++ ":" ++ pad2 t.minute ++ ":" ++ pad2 t.second

/-- Pad a digit string with leading zeros to the given width. -/
def padZeros (w : Nat) (s : String) : String :=
  String.mk (List.replicate (w - s.length) '0') ++ s

/-- Python fixed-point formatting `f"{x:.Nf}"` (round-half-even), on the
exact rational model of the float value. -/
def fmtFixed (decimals : Nat) (q : ℚ) : String :=
  let scaled := roundHalfEven (q * ((10 : ℚ) ^ decimals))
  let m := scaled.natAbs
  let ip := m / 10 ^ decimals
  let fp := m % 10 ^ decimals
  (if scaled < 0 then "-" else "") ++ toString ip
    ++ (if decimals = 0 then "" else "." ++ padZeros decimals (toString fp))

/-- Python `str()` of a float that `round(x, 2)` produced (shortest decimal
of a value that is a multiple of 1/100, as `_format_project_for_report`
stores). -/
def reprRound2 (q : ℚ) : String :=
  let k := roundHalfEven (q * 100)
  let m := k.natAbs
  let ip := m / 100
  let fp := m % 100
  let frac := if fp = 0 then "0"
    else if fp % 10 = 0 then toString (fp / 10)
    else if fp < 10 then "0" ++ toString fp
    else toString fp
  (if k < 0 then "-" else "") ++ toString ip ++ "." ++ frac

/-- Python `int()` truncation for the (non-negative) bar widths. -/
def pyTrunc (q : ℚ) : Nat :=
  (⌊q⌋).toNat

/-- `"█" * int(p/10) + "░" * (10 - int(p/10))`. -/
def barString (percentage : ℚ) : String :=
  let k := pyTrunc (percentage / 10)
  String.mk (List.replicate k '█') ++ String.mk (List.replicate (10 - k) '░')

/-- One featured-project block of `_generate_markdown_report`. -/
def featuredBlock (i : Nat) (p : FormattedProject) : String :=
  let ai_badge := if p.ai_collaboration then " 🤖" else ""
  let private_badge := if p.is_private then " 🔒" else ""
  "### " ++ toString i ++ ". " ++ p.name ++ ai_badge ++ private_badge
    ++ "\n\n**项目类型**: " ++ p.project_type
    ++ "  \n**商业价值**: " ++ p.business_value
    ++ "  \n**复杂度评分**: " ++ reprRound2 p.complexity_score
    ++ "/1.0  \n**估算工期**: " ++ p.estimated_duration
    ++ "\n\n**项目描述**: " ++ p.description
    ++ "\n\n**核心技术栈**: " ++ String.intercalate ", " (p.tech_stack.take 5)
    ++ "\n\n**关键特性**:\n"
    ++ String.intercalate "\n" (p.key_features.map (fun f => "- " ++ f))
    ++ "\n\n**建议角色**: " ++ String.intercalate ", " p.role_suggestions
    ++ "\n\n---\n\n"

/-- One recent-update line of `_generate_markdown_report`; the unconditional
`.replace('Z', '+00:00')` plus `fromisoformat` may fail (`none`). -/
def recentLine (p : FormattedProject) : Option String :=
  (pyFromIso' (replaceZ p.last_updated.data)).map (fun t =>
    let ai_indicator := if p.ai_collaboration then "🤖 " else ""
    "**" ++ ai_indicator ++ p.name ++ "** - " ++ p.project_type
      ++ "  \n*" ++ fmtMonthDay t ++ "更新* | 复杂度: "
      ++ fmtFixed 1 p.complexity_score
      ++ " | " ++ p.business_value ++ "\n\n")

/-- One skill-matrix table row (divides by the total repo count). -/
def skillRow (total : Nat) (p : String × Nat) : String :=
  let percentage : ℚ := ((p.2 : ℚ) / (total : ℚ)) * 100
  "| " ++ p.1 ++ " | " ++ toString p.2 ++ " | " ++ barString percentage ++ " "
    ++ fmtFixed 0 percentage ++ "% |\n"

/-- `ResumeReportGenerator._generate_markdown_report`.  The render-time clock
(`datetime.now()` in the footer) is the explicit `renderNow` parameter.
Raised exceptions — `fromisoformat` failures and the `ZeroDivisionError`
when `total_repos` is zero while a percentage row exists — are modelled as
`none`.  (The typed model always renders the statistics section; the source
skips it only when the `project_stats` dict itself is absent/empty, which
the aggregator never produces.) -/
def generateMarkdownReport (renderNow : PyDateTime) (data : ResumeReport) :
    Option String := do
  let genTime ← pyFromIso data.generated_at
  let featured := data.featured_projects
  let recent := data.recent_updates
  let suggestions := data.update_suggestions
  let recommendations := data.recommendations
  let skill_matrix := data.skill_matrix
  let head1 :=
    "# 🚀 GitHub仓库分析与简历更新报告\n\n**生成时间**: " ++ fmtGeneratedAt genTime
      ++ "\n\n## 📊 项目概览\n\n| 指标 | 数值 | 说明 |\n|------|------|------|\n| 总项目数 | **"
      ++ toString data.summary.total_repos
      ++ "** | 包含公开和私有仓库 |\n| 最近更新 | **"
      ++ toString data.summary.recent_updates
      ++ "** | 近30天内有更新的项目 |\n| 显著更新 | **"
      ++ toString data.summary.significant_updates
      ++ "** | 值得在简历中突出的项目 |\n| AI协作项目 | **"
      ++ toString data.summary.ai_projects
      ++ "** | 体现AI专家能力的项目 |\n| 平均复杂度 | **"
      ++ fmtFixed 2 data.summary.avg_complexity
      ++ "** | 项目技术复杂度评分(0-1) |\n\n## 🌟 重点项目推荐\n\n以下项目建议在简历中重点展示:\n\n"
  let featuredPart := String.join ((featured.take 5).enum.map
    (fun ip => featuredBlock (ip.1 + 1) ip.2))
  let recentLines ← (recent.take 10).mapM recentLine
  let recentPart := if recent.isEmpty then "" else
    "## 🔄 最近更新项目 (" ++ toString recent.length
      ++ "个)\n\n以下项目近期有重要更新，建议检查是否需要更新简历内容:\n\n"
      ++ String.join recentLines
  let skillPart ← if skill_matrix.isEmpty then pure "" else
    if data.summary.total_repos = 0 then none else
    pure ("## 💪 技能矩阵分析\n\n基于项目分析生成的技能使用频率统计:\n\n| 技能/能力 | 项目数量 | 权重 |\n|-----------|----------|------|\n"
      ++ String.join ((skill_matrix.take 15).map (skillRow data.summary.total_repos)))
  let suggestionsPart := if suggestions.isEmpty then "" else
    "## 📝 简历更新建议\n\n基于最近项目活动生成的具体更新建议:\n\n"
      ++ String.join (suggestions.enum.map (fun ip =>
          toString (ip.1 + 1) ++ ". **" ++ ip.2 ++ "**\n"))
      ++ "\n"
  let recommendationsPart := if recommendations.isEmpty then "" else
    "## 🎯 优化建议\n\n基于整体项目分析的简历优化建议:\n\n"
      ++ String.join (recommendations.enum.map (fun ip =>
          toString (ip.1 + 1) ++ ". " ++ ip.2 ++ "\n"))
      ++ "\n"
  let ptypesRows ← if data.summary.total_repos = 0
      ∧ ¬ data.project_stats.project_types.isEmpty then none
    else pure (String.join (data.project_stats.project_types.map (fun p =>
      "- **" ++ p.1 ++ "**: " ++ toString p.2 ++ "个 ("
        ++ fmtFixed 1 (((p.2 : ℚ) / (data.summary.total_repos : ℚ)) * 100)
        ++ "%)\n")))
  let statsPart := "## 📈 详细统计\n\n### 项目类型分布\n" ++ ptypesRows
      ++ "\n### 技术栈使用统计\n"
      ++ String.join ((data.project_stats.tech_stack_usage.take 10).map (fun p =>
          "- **" ++ p.1 ++ "**: " ++ toString p.2 ++ "个项目\n"))
  let skill0 := match skill_matrix with
    | [] => "AI协作"
    | p :: _ => p.1
  let actionPart :=
    "\n## 🚀 下一步行动\n\n### 立即行动\n1. **更新项目展示**: 重点突出前"
      ++ toString featured.length
      ++ "个推荐项目\n2. **技能标签更新**: 添加高频技术栈到技能列表\n3. **角色定位优化**: 基于AI项目比例("
      ++ toString data.summary.ai_projects ++ "/" ++ toString data.summary.total_repos
      ++ ")强化AI专家定位\n\n### 中期规划\n1. **开源贡献**: 考虑开源部分优秀私有项目\n2. **项目文档**: 完善重点项目的README和技术文档\n3. **社区影响**: 提升项目的star和fork数量\n\n### 长期建议\n1. **技术深度**: 在"
      ++ skill0
      ++ "领域继续深耕\n2. **商业价值**: 强化项目的实际业务价值展示\n3. **行业影响**: 建立个人技术品牌和影响力\n\n---\n\n*本报告由GitHub仓库自动分析系统生成，数据更新时间: "
      ++ fmtFullClock renderNow ++ "*\n"
  pure (head1 ++ featuredPart ++ recentPart ++ skillPart ++ suggestionsPart
    ++ recommendationsPart ++ statsPart ++ actionPart)

/-- `ResumeReportGenerator._generate_html_report`: renders the markdown
first, then wraps it in the fixed page template (brace characters written
as escapes). -/
def generateHtmlReport (renderNow : PyDateTime) (data : ResumeReport) :
    Option String := do
  let markdown_content ← generateMarkdownReport renderNow data
  let genTime ← pyFromIso data.generated_at
  pure ("<!DOCTYPE html>\n<html lang=\"zh-CN\">\n<head>\n    <meta charset=\"UTF-8\">\n    <meta name=\"viewport\" content=\"width=device-width, initial-scale=1.0\">\n    <title>GitHub简历更新报告</title>\n    <style>\n        body \x7b font-family: -apple-system, BlinkMacSystemFont, \x27Segoe UI\x27, sans-serif; \n               line-height: 1.6; color: #333; max-width: 1200px; margin: 0 auto; padding: 20px; \x7d\n        .header \x7b background: linear-gradient(135deg, #667eea 0%, #764ba2 100%); \n                   color: white; padding: 30px; border-radius: 10px; margin-bottom: 30px; \x7d\n        .stats \x7b display: grid; grid-template-columns: repeat(auto-fit, minmax(200px, 1fr)); \n                  gap: 20px; margin: 30px 0; \x7d\n        .stat-card \x7b background: #f8f9fa; padding: 20px; border-radius: 8px; text-align: center; \x7d\n        .stat-number \x7b font-size: 2em; font-weight: bold; color: #007bff; \x7d\n        .project-card \x7b background: white; border: 1px solid #e9ecef; border-radius: 8px; \n                         padding: 20px; margin: 15px 0; box-shadow: 0 2px 4px rgba(0,0,0,0.1); \x7d\n        .ai-badge \x7b background: #28a745; color: white; padding: 2px 8px; \n                     border-radius: 12px; font-size: 0.8em; \x7d\n        .private-badge \x7b background: #6c757d; color: white; padding: 2px 8px; \n                          border-radius: 12px; font-size: 0.8em; \x7d\n    </style>\n</head>\n<body>\n    <div class=\"header\">\n        <h1>🚀 GitHub仓库分析与简历更新报告</h1>\n        <p>生成时间: "
    ++ fmtGeneratedAt genTime
    ++ "</p>\n    </div>\n    \n    <div class=\"stats\">\n        <div class=\"stat-card\">\n            <div class=\"stat-number\">"
    ++ toString data.summary.total_repos
    ++ "</div>\n            <div>总项目数</div>\n        </div>\n        <div class=\"stat-card\">\n            <div class=\"stat-number\">"
    ++ toString data.summary.recent_updates
    ++ "</div>\n            <div>最近更新</div>\n        </div>\n        <div class=\"stat-card\">\n            <div class=\"stat-number\">"
    ++ toString data.summary.ai_projects
    ++ "</div>\n            <div>AI协作项目</div>\n        </div>\n        <div class=\"stat-card\">\n            <div class=\"stat-number\">"
    ++ fmtFixed 2 data.summary.avg_complexity
    ++ "</div>\n            <div>平均复杂度</div>\n        </div>\n    </div>\n    \n    <div class=\"content\">\n        <!-- 这里可以添加更多HTML内容 -->\n        <pre style=\"white-space: pre-wrap; font-family: inherit;\">"
    ++ markdown_content
    ++ "</pre>\n    </div>\n</body>\n</html>")

/-- `ResumeReportGenerator._generate_text_report`: derived from the markdown
rendering by the five substitution rules only. -/
def generateTextReport (renderNow : PyDateTime) (data : ResumeReport) :
    Option String :=
  (generateMarkdownReport renderNow data).map stripMarkdown

/-- The three template names of `ResumeReportGenerator.__init__`. -/
def supportedFormats : List String :=
  ["markdown", "html", "text"]

/-- `ResumeReportGenerator.generate_report`: an unrecognized format selector
raises `ValueError(f"不支持的格式: {format_type}")`; a recognized one
dispatches to its renderer (whose own raised exceptions are modelled as an
error value as well). -/
def generateReport (renderNow : PyDateTime) (data : ResumeReport)
    (format_type : String) : Except String String :=
  if format_type = "markdown" then
    match generateMarkdownReport renderNow data with
    | some s => .ok s
    | none => .error "ValueError: render failure"
  else if format_type = "html" then
    match generateHtmlReport renderNow data with
    | some s => .ok s
    | none => .error "ValueError: render failure"
  else if format_type = "text" then
    match generateTextReport renderNow data with
    | some s => .ok s
    | none => .error "ValueError: render failure"
  else .error ("不支持的格式: " ++ format_type)

/-- C9 (amended): the plain-text rendering equals the structured-markup
rendering of the same report transformed only by the fixed markup-stripping
substitution rules; figure preservation holds only restrictedly: for markup
text without link syntax (no `[`), every numeric figure (digits/percent/point
substring) appears verbatim in the stripped plain text, because those
substitutions delete only heading markers, whitespace after them, emphasis
markers and inline-code markers. Unrestricted preservation is false — the
link rule also deletes URL content, including any figures there. -/
theorem text_report_is_stripped_markdown (renderNow : PyDateTime)
    (d : ResumeReport) (s : String) (t : List Char) :
    generateTextReport renderNow d
        = (generateMarkdownReport renderNow d).map stripMarkdown ∧
    ('[' ∉ s.data → t ≠ [] → (∀ c ∈ t, isFigureChar c = true) →
      OccursIn t s.data → OccursIn t (stripMarkdown s).data) := by
  refine ⟨rfl, ?_⟩
  intro hbr hne hfig hocc
  have hdel := stripMarkdown_delOnly s.data hbr
  show OccursIn t (subCode (subLink (subItalic (subBold (subHeading s.data)))))
  exact hdel.occursIn_preserved t hne
    (fun c hc => figureChar_not_stripped c (hfig c hc)) hocc

/-- Render-time clock fixture (2025-08-30 12:00:00, naive). -/
def renderNow0 : PyDateTime :=
  ⟨2025, 8, 30, 12, 0, 0, false⟩

/-- A small well-formed report fixture. -/
def sampleReport : ResumeReport :=
  { generated_at := "2025-08-30T12:00:00"
    summary :=
      { total_repos := 3, recent_updates := 1, significant_updates := 1,
        ai_projects := 1, avg_complexity := 1/2 }
    project_stats := { project_types := [], tech_stack_usage := [] }
    skill_matrix := []
    featured_projects := []
    recent_updates := []
    update_suggestions := []
    recommendations := [] }

/-- Witness for C9: concrete stripping instance, "68%" survives verbatim. -/
theorem text_report_is_stripped_markdown_witness :
    generateTextReport renderNow0 sampleReport
        = (generateMarkdownReport renderNow0 sampleReport).map stripMarkdown ∧
    OccursIn "68%".data (stripMarkdown "| **68%** |").data := by
  have h := text_report_is_stripped_markdown renderNow0 sampleReport
    "| **68%** |" "68%".data
  exact ⟨h.1, h.2 (by decide) (by decide) (by decide)
    ⟨"| **".data, "** |".data, by decide⟩⟩

lemma markdown_genTime_isSome {renderNow : PyDateTime} {d : ResumeReport}
    {md : String} (h : generateMarkdownReport renderNow d = some md) :
    ∃ t, pyFromIso d.generated_at = some t := by
  cases hg : pyFromIso d.generated_at with
  | none => simp [generateMarkdownReport, hg] at h
  | some t => exact ⟨t, rfl⟩

/-- C10: any format selector other than the three supported names (including
the empty string and case-variants) makes `generate_report` fail with the
unsupported-format error rather than falling back to a default; each of the
three supported names returns a rendering whenever the markdown rendering
itself succeeds. -/
theorem generate_report_format_dispatch (renderNow : PyDateTime)
    (d : ResumeReport) (fmt : String) :
    (fmt ∉ supportedFormats →
      generateReport renderNow d fmt = .error ("不支持的格式: " ++ fmt)) ∧
    generateReport renderNow d "" = .error ("不支持的格式: ") ∧
    generateReport renderNow d "Markdown" = .error ("不支持的格式: Markdown") ∧
    ((generateMarkdownReport renderNow d).isSome = true →
      ∀ f ∈ supportedFormats, ∃ s, generateReport renderNow d f = .ok s) := by
  refine ⟨?_, rfl, rfl, ?_⟩
  · intro h
    simp only [supportedFormats, List.mem_cons, List.not_mem_nil, or_false] at h
    push_neg at h
    obtain ⟨h1, h2, h3⟩ := h
    unfold generateReport
    rw [if_neg h1, if_neg h2, if_neg h3]
  · intro hsome f hf
    obtain ⟨md, hmd⟩ := Option.isSome_iff_exists.mp hsome
    obtain ⟨gt, hgt⟩ := markdown_genTime_isSome hmd
    simp only [supportedFormats, List.mem_cons, List.not_mem_nil, or_false] at hf
    rcases hf with rfl | rfl | rfl
    · exact ⟨md, by simp [generateReport, hmd]⟩
    · have hh : (generateHtmlReport renderNow d).isSome = true := by
        simp [generateHtmlReport, hmd, hgt]
      obtain ⟨s, hs⟩ := Option.isSome_iff_exists.mp hh
      exact ⟨s, by simp [generateReport, hs]⟩
    · exact ⟨stripMarkdown md, by simp [generateReport, generateTextReport, hmd]⟩

/-- Witness for C10 at a concrete report and selectors. -/
theorem generate_report_format_dispatch_witness :
    generateReport renderNow0 sampleReport "" = .error ("不支持的格式: ") ∧
    ∃ s, generateReport renderNow0 sampleReport "markdown" = .ok s := by
  have h := generate_report_format_dispatch renderNow0 sampleReport "markdown"
  exact ⟨h.2.1, h.2.2.2 rfl "markdown" (by decide)⟩

lemma subLink_eq_close {rest content rest2 url rest3 : List Char}
    (hb : findBrkClose rest = some (content, rest2))
    (hp : findCloseCh ')' rest2 = some (url, rest3)) :
    subLink ('[' :: rest) = content ++ subLink rest3 := by
  rw [subLink, if_pos rfl]
  split
  · rename_i content' rest2' hb'
    rw [hb] at hb'
    simp only [Option.some.injEq, Prod.mk.injEq] at hb'
    obtain ⟨h1, h2⟩ := hb'
    subst h1
    subst h2
    split
    · rename_i url' rest3' hp'
      rw [hp] at hp'
      simp only [Option.some.injEq, Prod.mk.injEq] at hp'
      obtain ⟨h3, h4⟩ := hp'
      subst h3
      subst h4
      rfl
    · rename_i hp'
      rw [hp] at hp'
      simp at hp'
  · rename_i hb'
    rw [hb] at hb'
    simp at hb'

lemma subLink_eq_noparen {rest content rest2 : List Char}
    (hb : findBrkClose rest = some (content, rest2))
    (hp : findCloseCh ')' rest2 = none) :
    subLink ('[' :: rest) = '[' :: subLink rest := by
  rw [subLink, if_pos rfl]
  split
  · rename_i content' rest2' hb'
    rw [hb] at hb'
    simp only [Option.some.injEq, Prod.mk.injEq] at hb'
    obtain ⟨h1, h2⟩ := hb'
    subst h1
    subst h2
    split
    · rename_i url' rest3' hp'
      rw [hp] at hp'
      simp at hp'
    · rfl
  · rename_i hb'
    rw [hb] at hb'

lemma subLink_eq_nobrk {rest : List Char} (hb : findBrkClose rest = none) :
    subLink ('[' :: rest) = '[' :: subLink rest := by
  rw [subLink, if_pos rfl]
  split
  · rename_i content' rest2' hb'
    rw [hb] at hb'
    simp at hb'
  · rfl

lemma subLink_eq_skip {c : Char} {rest : List Char} (hc : ¬ c = '[') :
    subLink (c :: rest) = c :: subLink rest := by
  rw [subLink, if_neg hc]

/-- Fuel-based, kernel-executable twin of `subHeading` (used only to
evaluate the stripping pipeline on concrete inputs; proved equal below). -/
def subHeadingF : Nat → List Char → List Char
  | 0, l => l
  | _ + 1, [] => []
  | fuel + 1, c :: rest =>
    if c = '#' then
      subHeadingF fuel (List.dropWhile isSpaceChar (dropHashes 5 rest))
    else c :: subHeadingF fuel rest

/-- Fuel-based twin of `subBold`. -/
def subBoldF : Nat → List Char → List Char
  | 0, l => l
  | _ + 1, [] => []
  | fuel + 1, c :: rest =>
    if c = '*' ∧ rest.head? = some '*' then
      match findClose2 rest.tail with
      | some (content, rest2) => content ++ subBoldF fuel rest2
      | none => c :: subBoldF fuel rest
    else c :: subBoldF fuel rest

/-- Fuel-based twin of `subItalic`. -/
def subItalicF : Nat → List Char → List Char
  | 0, l => l
  | _ + 1, [] => []
  | fuel + 1, c :: rest =>
    if c = '*' then
      match findCloseCh '*' rest with
      | some (content, rest2) => content ++ subItalicF fuel rest2
      | none => c :: subItalicF fuel rest
    else c :: subItalicF fuel rest

/-- Fuel-based twin of `subLink`. -/
def subLinkF : Nat → List Char → List Char
  | 0, l => l
  | _ + 1, [] => []
  | fuel + 1, c :: rest =>
    if c = '[' then
      match findBrkClose rest with
      | some (content, rest2) =>
        match findCloseCh ')' rest2 with
        | some (_url, rest3) => content ++ subLinkF fuel rest3
        | none => c :: subLinkF fuel rest
      | none => c :: subLinkF fuel rest
    else c :: subLinkF fuel rest

/-- Fuel-based twin of `subCode`. -/
def subCodeF : Nat → List Char → List Char
  | 0, l => l
  | _ + 1, [] => []
  | fuel + 1, c :: rest =>
    if c = '\x60' then
      match findCloseCh '\x60' rest with
      | some (content, rest2) => content ++ subCodeF fuel rest2
      | none => c :: subCodeF fuel rest
    else c :: subCodeF fuel rest

lemma subHeadingF_eq : ∀ (l : List Char) (fuel : Nat), l.length ≤ fuel →
    subHeadingF fuel l = subHeading l := by
  intro l
  induction l using subHeading.induct with
  | case1 =>
    intro fuel _
    cases fuel with
    | zero => rw [subHeadingF, subHeading]
    | succ f => rw [subHeadingF, subHeading]
  | case2 rest ih =>
    intro fuel hf
    cases fuel with
    | zero => simp at hf
    | succ f =>
      rw [subHeading, if_pos rfl, subHeadingF, if_pos rfl]
      exact ih _ (by
        have h1 := dropWhile_length_le isSpaceChar (dropHashes 5 rest)
        have h2 := dropHashes_length_le 5 rest
        simp only [List.length_cons] at hf
        omega)
  | case3 c rest hc ih =>
    intro fuel hf
    cases fuel with
    | zero => simp at hf
    | succ f =>
      rw [subHeading, if_neg hc, subHeadingF, if_neg hc]
      rw [ih _ (by simp only [List.length_cons] at hf; omega)]

lemma subBoldF_eq : ∀ (l : List Char) (fuel : Nat), l.length ≤ fuel →
    subBoldF fuel l = subBold l := by
  intro l
  induction l using subBold.induct with
  | case1 =>
    intro fuel _
    cases fuel with
    | zero => rw [subBoldF, subBold]
    | succ f => rw [subBoldF, subBold]
  | case2 c rest hcc content rest2 hfc ih =>
    intro fuel hf
    cases fuel with
    | zero => simp at hf
    | succ f =>
      rw [subBold_eq_close hcc hfc, subBoldF, if_pos hcc]
      simp only [hfc]
      rw [ih _ (by
        have h1 := findClose2_rest_lt hfc
        have h2 : rest.tail.length ≤ rest.length := by cases rest <;> simp
        simp only [List.length_cons] at hf
        omega)]
  | case3 c rest hcc hfc ih =>
    intro fuel hf
    cases fuel with
    | zero => simp at hf
    | succ f =>
      rw [subBold_eq_noclose hcc hfc, subBoldF, if_pos hcc]
      simp only [hfc]
      rw [ih _ (by simp only [List.length_cons] at hf; omega)]
  | case4 c rest hcc ih =>
    intro fuel hf
    cases fuel with
    | zero => simp at hf
    | succ f =>
      rw [subBold_eq_skip hcc, subBoldF, if_neg hcc]
      rw [ih _ (by simp only [List.length_cons] at hf; omega)]

lemma subItalicF_eq : ∀ (l : List Char) (fuel : Nat), l.length ≤ fuel →
    subItalicF fuel l = subItalic l := by
  intro l
  induction l using subItalic.induct with
  | case1 =>
    intro fuel _
    cases fuel with
    | zero => rw [subItalicF, subItalic]
    | succ f => rw [subItalicF, subItalic]
  | case2 rest content rest2 hfc ih =>
    intro fuel hf
    cases fuel with
    | zero => simp at hf
    | succ f =>
      rw [subItalic_eq_close rfl hfc, subItalicF, if_pos rfl]
      simp only [hfc]
      rw [ih _ (by
        have h1 := findCloseCh_rest_lt hfc
        simp only [List.length_cons] at hf
        omega)]
  | case3 rest hfc ih =>
    intro fuel hf
    cases fuel with
    | zero => simp at hf
    | succ f =>
      rw [subItalic_eq_noclose rfl hfc, subItalicF, if_pos rfl]
      simp only [hfc]
      rw [ih _ (by simp only [List.length_cons] at hf; omega)]
  | case4 c rest hc ih =>
    intro fuel hf
    cases fuel with
    | zero => simp at hf
    | succ f =>
      rw [subItalic_eq_skip hc, subItalicF, if_neg hc]
      rw [ih _ (by simp only [List.length_cons] at hf; omega)]

lemma subLinkF_eq : ∀ (l : List Char) (fuel : Nat), l.length ≤ fuel →
    subLinkF fuel l = subLink l := by
  intro l
  induction l using subLink.induct with
  | case1 =>
    intro fuel _
    cases fuel with
    | zero => rw [subLinkF, subLink]
    | succ f => rw [subLinkF, subLink]
  | case2 rest content rest2 hb url rest3 hp ih =>
    intro fuel hf
    cases fuel with
    | zero => simp at hf
    | succ f =>
      rw [subLink_eq_close hb hp, subLinkF, if_pos rfl]
      simp only [hb, hp]
      rw [ih _ (by
        have h1 := findBrkClose_rest_lt hb
        have h2 := findCloseCh_rest_lt hp
        simp only [List.length_cons] at hf
        omega)]
  | case3 rest content rest2 hb hp ih =>
    intro fuel hf
    cases fuel with
    | zero => simp at hf
    | succ f =>
      rw [subLink_eq_noparen hb hp, subLinkF, if_pos rfl]
      simp only [hb, hp]
      rw [ih _ (by simp only [List.length_cons] at hf; omega)]
  | case4 rest hb ih =>
    intro fuel hf
    cases fuel with
    | zero => simp at hf
    | succ f =>
      rw [subLink_eq_nobrk hb, subLinkF, if_pos rfl]
      simp only [hb]
      rw [ih _ (by simp only [List.length_cons] at hf; omega)]
  | case5 c rest hc ih =>
    intro fuel hf
    cases fuel with
    | zero => simp at hf
    | succ f =>
      rw [subLink_eq_skip hc, subLinkF, if_neg hc]
      rw [ih _ (by simp only [List.length_cons] at hf; omega)]

lemma subCodeF_eq : ∀ (l : List Char) (fuel : Nat), l.length ≤ fuel →
    subCodeF fuel l = subCode l := by
  intro l
  induction l using subCode.induct with
  | case1 =>
    intro fuel _
    cases fuel with
    | zero => rw [subCodeF, subCode]
    | succ f => rw [subCodeF, subCode]
  | case2 rest content rest2 hfc ih =>
    intro fuel hf
    cases fuel with
    | zero => simp at hf
    | succ f =>
      rw [subCode_eq_close rfl hfc, subCodeF, if_pos rfl]
      simp only [hfc]
      rw [ih _ (by
        have h1 := findCloseCh_rest_lt hfc
        simp only [List.length_cons] at hf
        omega)]
  | case3 rest hfc ih =>
    intro fuel hf
    cases fuel with
    | zero => simp at hf
    | succ f =>
      rw [subCode_eq_noclose rfl hfc, subCodeF, if_pos rfl]
      simp only [hfc]
      rw [ih _ (by simp only [List.length_cons] at hf; omega)]
  | case4 c rest hc ih =>
    intro fuel hf
    cases fuel with
    | zero => simp at hf
    | succ f =>
      rw [subCode_eq_skip hc, subCodeF, if_neg hc]
      rw [ih _ (by simp only [List.length_cons] at hf; omega)]

/-- Kernel-executable form of the whole stripping pipeline. -/
def stripMarkdownF (s : String) : String :=
  let o1 := subHeadingF s.data.length s.data
  let o2 := subBoldF o1.length o1
  let o3 := subItalicF o2.length o2
  let o4 := subLinkF o3.length o3
  String.mk (subCodeF o4.length o4)

lemma stripMarkdownF_eq (s : String) : stripMarkdownF s = stripMarkdown s := by
  simp only [stripMarkdownF, stripMarkdown]
  rw [subHeadingF_eq _ _ le_rfl, subBoldF_eq _ _ le_rfl, subItalicF_eq _ _ le_rfl,
    subLinkF_eq _ _ le_rfl, subCodeF_eq _ _ le_rfl]

lemma isPfx_iff : ∀ (pat l : List Char), isPfx pat l = true ↔ ∃ t, l = pat ++ t := by
  intro pat
  induction pat with
  | nil => intro l; simp [isPfx]
  | cons a as ih =>
    intro l
    cases l with
    | nil => simp [isPfx]
    | cons b bs =>
      simp only [isPfx, Bool.and_eq_true, beq_iff_eq, ih bs, List.cons_append,
        List.cons.injEq]
      constructor
      · rintro ⟨rfl, t, rfl⟩; exact ⟨t, rfl, rfl⟩
      · rintro ⟨t, rfl, rfl⟩; exact ⟨rfl, t, rfl⟩

lemma isSub_iff (pat : List Char) : ∀ (l : List Char), isSub pat l = true ↔ OccursIn pat l := by
  intro l
  induction l with
  | nil =>
    simp only [isSub, List.isEmpty_iff, OccursIn]
    constructor
    · rintro rfl; exact ⟨[], [], rfl⟩
    · rintro ⟨x, y, hxy⟩
      have h2 := (List.append_eq_nil.mp hxy.symm).1
      exact (List.append_eq_nil.mp h2).2
  | cons c rest ih =>
    simp only [isSub, Bool.or_eq_true, isPfx_iff, ih, OccursIn]
    constructor
    · rintro (⟨t, ht⟩ | ⟨x, y, hxy⟩)
      · exact ⟨[], t, ht⟩
      · exact ⟨c :: x, y, by simp [hxy]⟩
    · rintro ⟨x, y, hxy⟩
      cases x with
      | nil => exact Or.inl ⟨y, by simpa using hxy⟩
      | cons d ds =>
        simp only [List.cons_append, List.cons.injEq] at hxy
        exact Or.inr ⟨ds, y, hxy.2⟩

/-- A record whose free-text description contains markdown link syntax with a
numeric figure inside the URL part. -/
def linkRepo : Repository :=
  { name := "demo", full_name := "u/demo", description := "see [doc](42%)",
    language := "", languages := [], topics := [], stars := 0, forks := 0,
    created_at := "2025-08-01T12:00:00Z", updated_at := "2025-08-01T12:00:00Z",
    pushed_at := "2025-08-01T12:00:00Z", size := 0, open_issues := 0,
    is_private := false }

/-- The aggregate report actually produced from `linkRepo` by the pipeline. -/
def linkReport : ResumeReport :=
  (generateResumeReport reportNow "2025-08-30T12:00:00" 30
    [analyzeProject linkRepo]).getD sampleReport

/-- The structured-markup rendering actually produced from `linkReport`. -/
def linkMd : String :=
  (generateMarkdownReport renderNow0 linkReport).getD ""

set_option maxRecDepth 100000 in
/-- Counterexample to unrestricted figure preservation: at an actual rendering
of an actual pipeline report, the markup text contains the numeric figure
`42%` (inside the link `[doc](42%)` coming from a free-text description), yet
the plain-text rendering — the stripped markup — does not contain `42%`
anywhere: the link substitution rule deletes the whole URL part, digits
included. -/
theorem numeric_figure_lost_counterexample :
    generateResumeReport reportNow "2025-08-30T12:00:00" 30
        [analyzeProject linkRepo] = some linkReport ∧
    generateMarkdownReport renderNow0 linkReport = some linkMd ∧
    generateTextReport renderNow0 linkReport = some (stripMarkdown linkMd) ∧
    OccursIn "42%".data linkMd.data ∧
    ¬ OccursIn "42%".data (stripMarkdown linkMd).data := by
  have hmd : generateMarkdownReport renderNow0 linkReport = some linkMd := by
    with_unfolding_all rfl
  refine ⟨by with_unfolding_all rfl, hmd, by simp [generateTextReport, hmd], ?_, ?_⟩
  · exact (isSub_iff "42%".data linkMd.data).mp (by with_unfolding_all rfl)
  · intro hocc
    have h := (isSub_iff "42%".data (stripMarkdown linkMd).data).mpr hocc
    rw [← stripMarkdownF_eq] at h
    have h2 : isSub "42%".data (stripMarkdownF linkMd).data = false := by
      with_unfolding_all rfl
    rw [h] at h2
    exact Bool.noConfusion h2
